import Mathlib

/-!
Verification development for the multi-channel period-comparison
aggregation engine of the femisafe data-assistant repository.

Strings from the source are embedded as lists of Unicode code points
(`List Nat`); `strCodes` converts a Lean string literal to that form.
Monetary metrics are embedded as exact rationals (`ℚ`), quantities as
integers (`ℤ`), and calendar dates as integer day indices (`ℤ`), so that
the D-1 / D-7 arithmetic of the reports is exact.
-/

/-- Code-point embedding of a string literal. -/
def strCodes (s : String) : List Nat := s.data.map Char.toNat

/-- Lexicographic strict order on code lists, mirroring Python string
comparison by code point. -/
def codesLtB : List Nat → List Nat → Bool
  | [], [] => false
  | [], _ :: _ => true
  | _ :: _, [] => false
  | a :: as, b :: bs => decide (a < b) || (decide (a = b) && codesLtB as bs)

/-- Lexicographic strict order on pairs of code lists (two-level
dimension keys, e.g. (sku, feeder_wh)). -/
def pairLtB (a b : List Nat × List Nat) : Bool :=
  codesLtB a.1 b.1 || (decide (a.1 = b.1) && codesLtB a.2 b.2)

/-- Test whether `p` is a leading block of `s` (substring search helper). -/
def startsWithCodes : List Nat → List Nat → Bool
  | [], _ => true
  | _ :: _, [] => false
  | p :: ps, c :: cs => decide (p = c) && startsWithCodes ps cs

/-- Test whether `p` occurs contiguously inside `s`; embeds Python's
`in` on strings and pandas `str.contains` with a literal pattern. -/
def containsSub (p : List Nat) : List Nat → Bool
  | [] => startsWithCodes p []
  | c :: cs => startsWithCodes p (c :: cs) || containsSub p cs

/-- Insert into a strictly sorted duplicate-free list, skipping an
element already present.  Used to embed the sorted unique index that
`pandas.pivot_table` and `groupby` produce. -/
def insertUniq {α : Type} [DecidableEq α] (lt : α → α → Bool) (x : α) : List α → List α
  | [] => [x]
  | y :: ys =>
    if x = y then y :: ys
    else if lt x y then x :: y :: ys
    else y :: insertUniq lt x ys

/-- Sorted duplicate-free list of all elements, embedding the sorted
unique key index of `pivot_table` / the key order of `groupby`. -/
def sortedUniq {α : Type} [DecidableEq α] (lt : α → α → Bool) (l : List α) : List α :=
  l.foldr (insertUniq lt) []

/-- Stable insertion step: `lt y x` means `y` must stay strictly before
`x`; on ties the incoming (originally earlier) element is placed first. -/
def insertByLt {α : Type} (lt : α → α → Bool) (x : α) : List α → List α
  | [] => [x]
  | y :: ys => if lt y x then y :: insertByLt lt x ys else x :: y :: ys

/-- Insertion sort by the strict relation `lt`: one deterministic
representative of `DataFrame.sort_values`' documented contract, which
promises only an arrangement weakly sorted by the key — the default
`kind='quicksort'` is not stable, so the order among tied keys is not
guaranteed by the program.  The theorems proved about the emitted
tables therefore state only tie-order-invariant consequences of this
choice (membership, permutation, weakly sorted key order). -/
def sortByLt {α : Type} (lt : α → α → Bool) : List α → List α
  | [] => []
  | x :: xs => insertByLt lt x (sortByLt lt xs)

/-- ASCII lower-casing of one code point (`str.lower` restricted to the
ASCII letters that the product names use). -/
def lowerCode (c : Nat) : Nat := if 65 ≤ c ∧ c ≤ 90 then c + 32 else c

/-- ASCII upper-casing of one code point. -/
def upperCode (c : Nat) : Nat := if 97 ≤ c ∧ c ≤ 122 then c - 32 else c

/-- ASCII letter test used for the word boundaries of `str.title`. -/
def isAlphaCode (c : Nat) : Bool :=
  decide ((65 ≤ c ∧ c ≤ 90) ∨ (97 ≤ c ∧ c ≤ 122))

/-- Embedding of Python `str.title` on ASCII text: the flag records
whether the previous character was a letter; a letter starting a word is
upper-cased, any other letter lower-cased. -/
def pyTitle (prevAlpha : Bool) : List Nat → List Nat
  | [] => []
  | c :: cs =>
    (if isAlphaCode c then (if prevAlpha then lowerCode c else upperCode c) else c)
      :: pyTitle (isAlphaCode c) cs

/-- Banker's rounding of a rational to the nearest integer, as Python's
built-in `round` does. -/
def roundHalfEven (q : ℚ) : ℤ :=
  let f : ℤ := ⌊q⌋
  let r : ℚ := q - f
  if r < 1/2 then f
  else if 1/2 < r then f + 1
  else if f % 2 = 0 then f else f + 1

/-- Embedding of Python `round(x, 2)` on exact rationals. -/
def pyRound2 (q : ℚ) : ℚ := (roundHalfEven (q * 100) : ℚ) / 100

/-! ## Normalized blinkit sales records and the shared period layout -/

/-- A normalized blinkit sales record as the report pages see it after
the data loader: dimension values as code lists, the order date as an
integer day index, `net_revenue` rational, `quantity` integral. -/
structure BRec where
  sku : List Nat
  feeder : List Nat
  date : ℤ
  net_revenue : ℚ
  quantity : ℤ
deriving DecidableEq, Repr

/-- `df['date'].max()`: the anchor (latest) day of the working set. -/
def latestDate (rs : List BRec) : ℤ :=
  match rs with
  | [] => 0
  | r :: t => t.foldl (fun m x => max m x.date) r.date

/-- `latest_date - pd.Timedelta(days=1)`. -/
def d1Date (rs : List BRec) : ℤ := latestDate rs - 1

/-- `latest_date - pd.Timedelta(days=7)`. -/
def d7Date (rs : List BRec) : ℤ := latestDate rs - 7

/-- `df[df['date'].isin([d7_date, d1_date, latest_date])]`. -/
def filterPeriods (rs : List BRec) : List BRec :=
  rs.filter (fun r => r.date = d7Date rs ∨ r.date = d1Date rs ∨ r.date = latestDate rs)

/-- The distinct dates that actually occur in the filtered working set;
these are exactly the date columns `pivot_table(columns='date')` creates. -/
def presentDates (rs : List BRec) : List ℤ :=
  ((filterPeriods rs).map (fun r => r.date)).dedup

/-- A growth-percentage cell: blank (the empty string the pages assign
to leaf rows) or a numeric percentage. -/
inductive GCell where
  | blank : GCell
  | num : ℚ → GCell
deriving DecidableEq, Repr

/-- Whether a growth cell carries a numeric value. -/
def carriesNum : GCell → Bool
  | GCell.blank => false
  | GCell.num _ => true

/-! ## blinkit_citywise_performance.py : page() -/

/-- Sum of `quantity` over filtered records of one (feeder, sku) key on
one date: a cell of the citywise `pivot_table(fill_value=0)`. -/
def cityQty (rs : List BRec) (f s : List Nat) (d : ℤ) : ℤ :=
  (((filterPeriods rs).filter (fun r => r.feeder = f ∧ r.sku = s ∧ r.date = d)).map
    (fun r => r.quantity)).sum

/-- Sum of `net_revenue` over filtered records of one (feeder, sku) key
on one date. -/
def cityRev (rs : List BRec) (f s : List Nat) (d : ℤ) : ℚ :=
  (((filterPeriods rs).filter (fun r => r.feeder = f ∧ r.sku = s ∧ r.date = d)).map
    (fun r => r.net_revenue)).sum

/-- `cols_to_keep`: of the three configured dates, those whose column
exists in the pivot, i.e. those with at least one filtered record. -/
def cityCols (rs : List BRec) : List ℤ :=
  [d7Date rs, d1Date rs, latestDate rs].filter (fun d => d ∈ presentDates rs)

/-- The sorted unique (feeder_wh, sku) index of the citywise pivot. -/
def cityKeys (rs : List BRec) : List (List Nat × List Nat) :=
  sortedUniq pairLtB ((filterPeriods rs).map (fun r => (r.feeder, r.sku)))

/-- The distinct feeder warehouses, in `groupby('feeder_wh')` order. -/
def cityFeeders (rs : List BRec) : List (List Nat) :=
  sortedUniq codesLtB ((cityKeys rs).map (fun k => k.1))

/-- The pivot keys belonging to one feeder group. -/
def cityGroupKeys (rs : List BRec) (f : List Nat) : List (List Nat × List Nat) :=
  (cityKeys rs).filter (fun k => k.1 = f)

/-- One metric cell of a citywise comparison row. -/
structure CCell where
  date : ℤ
  qty : ℤ
  rev : ℚ
deriving DecidableEq, Repr

/-- A row of the citywise report table. -/
structure CRow where
  feeder : List Nat
  sku : List Nat
  cells : List CCell
  unitsDelta : ℤ
  revenueDelta : ℚ
  growth : GCell
deriving DecidableEq, Repr

/-- Look up the metric cell of one date in a row, if present. -/
def lookupCell (row : CRow) (d : ℤ) : Option (ℤ × ℚ) :=
  (row.cells.find? (fun c => c.date = d)).map (fun c => (c.qty, c.rev))

/-- Whether both the latest and the D-7 columns exist, the guard the
page uses before computing deltas and growth. -/
def cityHasDeltaCols (rs : List BRec) : Bool :=
  decide (latestDate rs ∈ cityCols rs) && decide (d7Date rs ∈ cityCols rs)

/-- A leaf row of the citywise table: one cell per kept column (absent
(key, date) data summing to zero via `fill_value=0`), deltas guarded on
column existence, and the `Growth %` cell blanked (`group['Growth %'] = ""`). -/
def cityLeafRow (rs : List BRec) (k : List Nat × List Nat) : CRow :=
  { feeder := k.1
    sku := k.2
    cells := (cityCols rs).map (fun d => ⟨d, cityQty rs k.1 k.2 d, cityRev rs k.1 k.2 d⟩)
    unitsDelta :=
      if cityHasDeltaCols rs then
        cityQty rs k.1 k.2 (latestDate rs) - cityQty rs k.1 k.2 (d7Date rs)
      else 0
    revenueDelta :=
      if cityHasDeltaCols rs then
        cityRev rs k.1 k.2 (latestDate rs) - cityRev rs k.1 k.2 (d7Date rs)
      else 0
    growth := GCell.blank }

/-- `group[col].sum()` for the quantity column of one date. -/
def citySubQty (rs : List BRec) (f : List Nat) (d : ℤ) : ℤ :=
  ((cityGroupKeys rs f).map (fun k => cityQty rs f k.2 d)).sum

/-- `group[col].sum()` for the revenue column of one date. -/
def citySubRev (rs : List BRec) (f : List Nat) (d : ℤ) : ℚ :=
  ((cityGroupKeys rs f).map (fun k => cityRev rs f k.2 d)).sum

/-- The subtotal row of one feeder group: column sums of the group's
leaf rows, recomputed deltas, and the zero-guarded growth on revenue. -/
def citySubtotalRow (rs : List BRec) (f : List Nat) : CRow :=
  { feeder := f
    sku := f ++ strCodes (r" Total")
    cells := (cityCols rs).map (fun d => ⟨d, citySubQty rs f d, citySubRev rs f d⟩)
    unitsDelta :=
      if cityHasDeltaCols rs then citySubQty rs f (latestDate rs) - citySubQty rs f (d7Date rs)
      else 0
    revenueDelta :=
      if cityHasDeltaCols rs then citySubRev rs f (latestDate rs) - citySubRev rs f (d7Date rs)
      else 0
    growth :=
      if cityHasDeltaCols rs then
        GCell.num
          (if citySubRev rs f (d7Date rs) = 0 then 0
           else pyRound2 (((citySubRev rs f (latestDate rs) - citySubRev rs f (d7Date rs)) /
             citySubRev rs f (d7Date rs)) * 100))
      else GCell.num 0 }

/-- `pivot[col].sum()` over all leaf rows, for the quantity of one date. -/
def cityGrandQty (rs : List BRec) (d : ℤ) : ℤ :=
  ((cityKeys rs).map (fun k => cityQty rs k.1 k.2 d)).sum

/-- `pivot[col].sum()` over all leaf rows, for the revenue of one date. -/
def cityGrandRev (rs : List BRec) (d : ℤ) : ℚ :=
  ((cityKeys rs).map (fun k => cityRev rs k.1 k.2 d)).sum

/-- The grand-total row: column sums over the whole leaf pivot (never
over subtotal rows), recomputed deltas, zero-guarded growth. -/
def cityGrandRow (rs : List BRec) : CRow :=
  { feeder := strCodes (r"Grand Total")
    sku := []
    cells := (cityCols rs).map (fun d => ⟨d, cityGrandQty rs d, cityGrandRev rs d⟩)
    unitsDelta :=
      if cityHasDeltaCols rs then cityGrandQty rs (latestDate rs) - cityGrandQty rs (d7Date rs)
      else 0
    revenueDelta :=
      if cityHasDeltaCols rs then cityGrandRev rs (latestDate rs) - cityGrandRev rs (d7Date rs)
      else 0
    growth :=
      if cityHasDeltaCols rs then
        GCell.num
          (if cityGrandRev rs (d7Date rs) = 0 then 0
           else pyRound2 (((cityGrandRev rs (latestDate rs) - cityGrandRev rs (d7Date rs)) /
             cityGrandRev rs (d7Date rs)) * 100))
      else GCell.num 0 }

/-- The emitted citywise table: per feeder group its leaf rows then its
subtotal, with the grand total appended last.  (The presentation step
that blanks repeated feeder labels is display-only and omitted.) -/
def cityTable (rs : List BRec) : List CRow :=
  ((cityFeeders rs).flatMap (fun f =>
    (cityGroupKeys rs f).map (cityLeafRow rs) ++ [citySubtotalRow rs f])) ++
  [cityGrandRow rs]

/-! ## app.py : SKU Sales Report (sku × feeder_wh, compared on D-7/D-1/latest) -/

/-- A row of the SKU Sales Report working table (`pivot` / `final_df`):
quantity and revenue for the three date columns, the delta columns, and
the `Growth %` cell. -/
structure SRow where
  sku : List Nat
  feeder : List Nat
  qD7 : ℤ
  qD1 : ℤ
  qCur : ℤ
  rD7 : ℚ
  rD1 : ℚ
  rCur : ℚ
  unitsDelta : ℤ
  revenueDelta : ℚ
  growth : GCell
deriving DecidableEq, Repr

/-- Sum of `quantity` over filtered records of one (sku, feeder) key on
one date: a cell of the SKU report's `pivot_table(fill_value=0)`. -/
def appQty (rs : List BRec) (s f : List Nat) (d : ℤ) : ℤ :=
  (((filterPeriods rs).filter (fun r => r.sku = s ∧ r.feeder = f ∧ r.date = d)).map
    (fun r => r.quantity)).sum

/-- Sum of `net_revenue` over filtered records of one (sku, feeder) key
on one date. -/
def appRev (rs : List BRec) (s f : List Nat) (d : ℤ) : ℚ :=
  (((filterPeriods rs).filter (fun r => r.sku = s ∧ r.feeder = f ∧ r.date = d)).map
    (fun r => r.net_revenue)).sum

/-- The sorted unique (sku, feeder_wh) index of the SKU report pivot. -/
def appKeys (rs : List BRec) : List (List Nat × List Nat) :=
  sortedUniq pairLtB ((filterPeriods rs).map (fun r => (r.sku, r.feeder)))

/-- The distinct SKUs in `pivot.groupby('sku')` order (ascending). -/
def appGroupSkus (rs : List BRec) : List (List Nat) :=
  sortedUniq codesLtB ((appKeys rs).map (fun k => k.1))

/-- All three date columns exist in the pivot; the report's column
reindex `pivot[[...]]` raises a `KeyError` otherwise, so its table is
only produced under this condition. -/
def appDatesPresent (rs : List BRec) : Prop :=
  d7Date rs ∈ presentDates rs ∧ d1Date rs ∈ presentDates rs ∧ latestDate rs ∈ presentDates rs

instance (rs : List BRec) : Decidable (appDatesPresent rs) := by
  unfold appDatesPresent; infer_instance

/-- A leaf row of the SKU report: per-date pivot cells, delta columns,
and the `Growth %` cell blanked (`group['Growth %'] = ""`). -/
def appLeafRow (rs : List BRec) (k : List Nat × List Nat) : SRow :=
  { sku := k.1
    feeder := k.2
    qD7 := appQty rs k.1 k.2 (d7Date rs)
    qD1 := appQty rs k.1 k.2 (d1Date rs)
    qCur := appQty rs k.1 k.2 (latestDate rs)
    rD7 := appRev rs k.1 k.2 (d7Date rs)
    rD1 := appRev rs k.1 k.2 (d1Date rs)
    rCur := appRev rs k.1 k.2 (latestDate rs)
    unitsDelta := appQty rs k.1 k.2 (latestDate rs) - appQty rs k.1 k.2 (d7Date rs)
    revenueDelta := appRev rs k.1 k.2 (latestDate rs) - appRev rs k.1 k.2 (d7Date rs)
    growth := GCell.blank }

/-- The leaf rows of one SKU group, in pivot (ascending feeder) order. -/
def appLeavesOf (rs : List BRec) (s : List Nat) : List SRow :=
  ((appKeys rs).filter (fun k => k.1 = s)).map (appLeafRow rs)

/-- The subtotal row of one SKU group: `group[col].sum()` per column,
recomputed deltas, and the zero-guarded rounded growth on revenue. -/
def appSubtotalRow (rs : List BRec) (s : List Nat) : SRow :=
  let ls := appLeavesOf rs s
  let prev : ℚ := (ls.map (fun r => r.rD7)).sum
  let curr : ℚ := (ls.map (fun r => r.rCur)).sum
  { sku := s
    feeder := s ++ strCodes (r" Total")
    qD7 := (ls.map (fun r => r.qD7)).sum
    qD1 := (ls.map (fun r => r.qD1)).sum
    qCur := (ls.map (fun r => r.qCur)).sum
    rD7 := prev
    rD1 := (ls.map (fun r => r.rD1)).sum
    rCur := curr
    unitsDelta := (ls.map (fun r => r.qCur)).sum - (ls.map (fun r => r.qD7)).sum
    revenueDelta := curr - prev
    growth := GCell.num (if prev = 0 then 0 else pyRound2 (((curr - prev) / prev) * 100)) }

/-- `final_df`: for each SKU in groupby order, its leaf rows followed by
its subtotal row. -/
def appFinalDf (rs : List BRec) : List SRow :=
  (appGroupSkus rs).flatMap (fun s => appLeavesOf rs s ++ [appSubtotalRow rs s])

/-- The subtotal-row classifier of the SKU report:
`final_df['feeder_wh'].str.contains('Total')`. -/
def isTotalFeeder (row : SRow) : Bool := containsSub (strCodes (r"Total")) row.feeder

/-- `source_rows`: the rows of `final_df` not classified as subtotals. -/
def appSourceRows (rs : List BRec) : List SRow :=
  (appFinalDf rs).filter (fun row => !(isTotalFeeder row))

/-- The SKU column of `sku_totals` before sorting: distinct SKUs of
`source_rows` in `groupby('sku')` (ascending) order. -/
def appSkuTotalsBase (rs : List BRec) : List (List Nat) :=
  sortedUniq codesLtB ((appSourceRows rs).map (fun row => row.sku))

/-- One SKU's total of the latest-date quantity column over `source_rows`. -/
def appSkuTotal (rs : List BRec) (s : List Nat) : ℤ :=
  (((appSourceRows rs).filter (fun row => row.sku = s)).map (fun row => row.qCur)).sum

/-- `sku_totals.sort_values(ascending=False)['sku'].tolist()`: the SKU
emission order, sorted by total latest units descending (stable). -/
def appSkuOrder (rs : List BRec) : List (List Nat) :=
  sortByLt (fun a b => decide (appSkuTotal rs b < appSkuTotal rs a)) (appSkuTotalsBase rs)

/-- `feeder_totals`: latest-units total of one (sku, feeder) pair over
`source_rows`. -/
def appFeederTotal (rs : List BRec) (s f : List Nat) : ℤ :=
  (((appSourceRows rs).filter (fun row => row.sku = s ∧ row.feeder = f)).map
    (fun row => row.qCur)).sum

/-- One SKU's leaf rows sorted by their feeder total descending
(stable), as the report sorts `sku_rows` after merging `feeder_totals`. -/
def appSkuRowsSorted (rs : List BRec) (s : List Nat) : List SRow :=
  sortByLt (fun a b => decide (appFeederTotal rs s b.feeder < appFeederTotal rs s a.feeder))
    ((appSourceRows rs).filter (fun row => row.sku = s))

/-- `ordered_df`: for each SKU in sorted order, its sorted leaf rows
followed by the subtotal rows found for it in `final_df`.  (The
`else`-branch that builds a fresh subtotal is dead: every SKU of
`source_rows` received a subtotal row when `final_df` was built.) -/
def appOrderedRows (rs : List BRec) : List SRow :=
  (appSkuOrder rs).flatMap (fun s =>
    appSkuRowsSorted rs s ++
    (appFinalDf rs).filter (fun row => decide (row.sku = s) && isTotalFeeder row))

/-- The grand-total row, summed over `source_rows` only; its `Growth %`
divides by 1 instead of the D-7 revenue sum when the latter is 0. -/
def appGrandRow (rs : List BRec) : SRow :=
  let src := appSourceRows rs
  let prev : ℚ := (src.map (fun row => row.rD7)).sum
  let curr : ℚ := (src.map (fun row => row.rCur)).sum
  { sku := strCodes (r"Grand Total")
    feeder := []
    qD7 := (src.map (fun row => row.qD7)).sum
    qD1 := (src.map (fun row => row.qD1)).sum
    qCur := (src.map (fun row => row.qCur)).sum
    rD7 := prev
    rD1 := (src.map (fun row => row.rD1)).sum
    rCur := curr
    unitsDelta := (src.map (fun row => row.unitsDelta)).sum
    revenueDelta := (src.map (fun row => row.revenueDelta)).sum
    growth := GCell.num (pyRound2 (((curr - prev) / (if prev ≠ 0 then prev else 1)) * 100)) }

/-- The emitted SKU Sales Report table: the ordered group blocks with
the grand total concatenated last. -/
def appTable (rs : List BRec) : List SRow :=
  appOrderedRows rs ++ [appGrandRow rs]

/-- No record's dimension label contains the substring `Total`, so the
string heuristics that classify subtotal rows cannot misfire on leaves. -/
def noTotalName (rs : List BRec) : Prop :=
  ∀ r ∈ rs, containsSub (strCodes (r"Total")) r.feeder = false ∧
    containsSub (strCodes (r"Total")) r.sku = false

instance (rs : List BRec) : Decidable (noTotalName rs) := by
  unfold noTotalName; infer_instance

/-! ## Numeric cleaning of the blinkit loaders (C6) -/

/-- `str.replace(r'[₹,]', '', regex=True)`: drop every rupee sign
(U+20B9 = 8377) and comma (44) from the value. -/
def replaceRupeeComma (s : List Nat) : List Nat :=
  s.filter (fun c => !(decide (c = 8377) || decide (c = 44)))

/-- Digit test on a code point. -/
def isDigitCode (c : Nat) : Bool := decide (48 ≤ c ∧ c ≤ 57)

/-- Numeric value of a digit string (0 on the empty string). -/
def digitsVal (l : List Nat) : Nat := l.foldl (fun a c => a * 10 + (c - 48)) 0

/-- Split a code list at the first dot (46), if any. -/
def splitAtDot : List Nat → List Nat × Option (List Nat)
  | [] => ([], none)
  | c :: cs =>
    if c = 46 then ([], some cs)
    else
      let p := splitAtDot cs
      (c :: p.1, p.2)

/-- Parse an unsigned decimal literal (`"12"`, `"12.5"`, `".5"`,
`"12."`) exactly; anything else fails.  Models the float parsing that
`pd.to_numeric` applies to a plain decimal string (exponent forms and
specials, which never match the report data, are not modelled). -/
def parseUnsignedDec (l : List Nat) : Option ℚ :=
  let p := splitAtDot l
  match p.2 with
  | none =>
    if l ≠ [] ∧ l.all isDigitCode then some (digitsVal l : ℚ) else none
  | some fp =>
    if (p.1 ≠ [] ∨ fp ≠ []) ∧ p.1.all isDigitCode ∧ fp.all isDigitCode then
      some ((digitsVal p.1 : ℚ) + (digitsVal fp : ℚ) / ((10 : ℚ) ^ fp.length))
    else none

/-- Parse a signed decimal literal. -/
def parseDecCodes : List Nat → Option ℚ
  | 45 :: rest => (parseUnsignedDec rest).map (fun q => -q)
  | 43 :: rest => parseUnsignedDec rest
  | l => parseUnsignedDec l

/-- The loaders' numeric cleaning:
`pd.to_numeric(col.str.replace(r'[₹,]', ''), errors='coerce').fillna(0)`. -/
def toNumericCoerceFill (s : List Nat) : ℚ :=
  (parseDecCodes (replaceRupeeComma s)).getD 0

/-! ## Date cleaning of the blinkit loaders (C7) -/

/-- A parsed calendar date. -/
structure PDate where
  day : Nat
  month : Nat
  year : Nat
deriving DecidableEq, Repr

/-- A raw blinkit record before date coercion: the order date is still
the text the database returned. -/
structure RawBRec where
  sku : List Nat
  feeder : List Nat
  dateStr : List Nat
  net_revenue : ℚ
  quantity : ℤ
deriving DecidableEq, Repr

/-- Split a code list on slashes (47). -/
def splitOnSlash : List Nat → List (List Nat)
  | [] => [[]]
  | c :: cs =>
    if c = 47 then [] :: splitOnSlash cs
    else
      match splitOnSlash cs with
      | [] => [[c]]
      | w :: ws => (c :: w) :: ws

/-- Parse a nonempty all-digit field. -/
def parseNatField (l : List Nat) : Option Nat :=
  if l ≠ [] ∧ l.all isDigitCode then some (digitsVal l) else none

/-- Day-first date parsing, the behavior of
`pd.to_datetime(col, dayfirst=True, errors='coerce')` on the loader's
`D/M/Y` date strings: the first field is the day, the second the month;
an out-of-range or malformed string coerces to `NaT` (`none`).
(Only the slash-separated numeric format the feed uses is modelled.) -/
def parseDateDayfirst (s : List Nat) : Option PDate :=
  match splitOnSlash s with
  | [df, mf, yf] =>
    match parseNatField df, parseNatField mf, parseNatField yf with
    | some d, some m, some y =>
      if 1 ≤ d ∧ d ≤ 31 ∧ 1 ≤ m ∧ m ≤ 12 then some ⟨d, m, y⟩ else none
    | _, _, _ => none
  | _ => none

/-- `pd.to_datetime(df['order_date'], dayfirst=True, errors='coerce')`:
every record keeps its parse result, unparsable dates becoming `NaT`. -/
def toDatetimeDayfirst (rows : List RawBRec) : List (RawBRec × Option PDate) :=
  rows.map (fun r => (r, parseDateDayfirst r.dateStr))

/-- `df.dropna(subset=['order_date'])`: rows whose date coerced to `NaT`
are removed; the survivors carry their parsed date. -/
def dropnaOrderDate (l : List (RawBRec × Option PDate)) : List (RawBRec × PDate) :=
  l.filterMap (fun p => p.2.map (fun d => (p.1, d)))

/-- The date-normalization tail of `get_blinkit_data`. -/
def blinkitDates (rows : List RawBRec) : List (RawBRec × PDate) :=
  dropnaOrderDate (toDatetimeDayfirst rows)

/-! ## drr.py : calc_growth and normalize_product (C9, C10) -/

/-- `np.where(prev > 0, ((curr - prev) / prev) * 100, 0)` applied to one
pair of revenue values. -/
def calc_growth (curr prev : ℚ) : ℚ :=
  if 0 < prev then ((curr - prev) / prev) * 100 else 0

/-- The branch chain of the DRR product-name normalizer, applied to the
already lower-cased name, in source order, with the `str.title`
fallback. -/
def normalizeLowered (n : List Nat) : List Nat :=
  if containsSub (strCodes (r"razor")) n then strCodes (r"Razors")
  else if containsSub (strCodes (r"nipple")) n || containsSub (strCodes (r"pasties")) n then
    strCodes (r"Nipple Pasties")
  else if containsSub (strCodes (r"pimple")) n || containsSub (strCodes (r"patch")) n then
    strCodes (r"Pimple Patch")
  else if containsSub (strCodes (r"liner")) n then strCodes (r"Panty Liners")
  else if containsSub (strCodes (r"sweat")) n || containsSub (strCodes (r"pad")) n then
    strCodes (r"Sweat Pad")
  else if containsSub (strCodes (r"lotion")) n then strCodes (r"Magnesium Lotion")
  else if containsSub (strCodes (r"wash")) n then strCodes (r"Intimate Wash")
  else if containsSub (strCodes (r"rollon")) n || containsSub (strCodes (r"roll-on")) n then
    strCodes (r"Underarm Rollon")
  else if containsSub (strCodes (r"cup")) n && !containsSub (strCodes (r"wash")) n then
    strCodes (r"Menstrual Cups")
  else if containsSub (strCodes (r"cramp")) n then strCodes (r"Period Cramp Rollon")
  else if containsSub (strCodes (r"lubricant")) n then strCodes (r"Lubricants")
  else if containsSub (strCodes (r"cup wash")) n then strCodes (r"Cup Wash")
  else if containsSub (strCodes (r"period panties")) n || containsSub (strCodes (r"panty")) n then
    strCodes (r"Period Panties")
  else if containsSub (strCodes (r"sterilizer")) n then strCodes (r"Sterilizers")
  else if containsSub (strCodes (r"energizer")) n then strCodes (r"Period Energizer")
  else if containsSub (strCodes (r"aloe")) n || containsSub (strCodes (r"gel")) n then
    strCodes (r"Aloe Gel")
  else pyTitle false n

/-- The DRR product-name normalizer: `name = str(name).lower()` followed
by the substring branches. -/
def normalize_product (s : List Nat) : List Nat :=
  normalizeLowered (s.map lowerCode)

/-! ## swiggy/ad_spend_report.py : outer merge and the name coalesce (C8) -/

/-- A row of `ad_grp`: ad metrics grouped by (join_key, date_str). -/
structure AdGrpRow where
  joinKey : List Nat
  dateStr : List Nat
  std_spend : ℚ
  std_ad_sales : ℚ
  product_display : List Nat
deriving DecidableEq, Repr

/-- A row of `sales_grp`: sales metrics grouped by (join_key, date_str). -/
structure SalesGrpRow where
  joinKey : List Nat
  dateStr : List Nat
  std_gross_sales : ℚ
  product_display : List Nat
deriving DecidableEq, Repr

/-- A cell of the merged product-display columns: either a string value
or the numeric 0 that `fillna(0)` put where the outer merge had no row. -/
inductive PCell where
  | zero : PCell
  | str : List Nat → PCell
deriving DecidableEq, Repr

/-- A row of `merged` after `pd.merge(..., how='outer').fillna(0)` and
the display-name coalesce. -/
structure MergedRow where
  joinKey : List Nat
  dateStr : List Nat
  std_spend : ℚ
  std_ad_sales : ℚ
  std_gross_sales : ℚ
  product_display_x : PCell
  product_display_y : PCell
  display_name : PCell
deriving DecidableEq, Repr

/-- `np.where(merged['product_display_x'] != 0, x, y)`: any string —
including the empty string — differs from the integer 0, so the
source-A cell wins unless it is the fillna marker itself. -/
def coalesceDisplay (x y : PCell) : PCell :=
  if x = PCell.zero then y else x

/-- The merged row produced for one `ad_grp` row: its sales-side cells
come from the matching `sales_grp` row when one exists and from
`fillna(0)` otherwise. -/
def mergeAdRow (sales : List SalesGrpRow) (a : AdGrpRow) : MergedRow :=
  match sales.find? (fun s => s.joinKey = a.joinKey ∧ s.dateStr = a.dateStr) with
  | some s =>
    { joinKey := a.joinKey, dateStr := a.dateStr
      std_spend := a.std_spend, std_ad_sales := a.std_ad_sales
      std_gross_sales := s.std_gross_sales
      product_display_x := PCell.str a.product_display
      product_display_y := PCell.str s.product_display
      display_name := coalesceDisplay (PCell.str a.product_display)
        (PCell.str s.product_display) }
  | none =>
    { joinKey := a.joinKey, dateStr := a.dateStr
      std_spend := a.std_spend, std_ad_sales := a.std_ad_sales
      std_gross_sales := 0
      product_display_x := PCell.str a.product_display
      product_display_y := PCell.zero
      display_name := coalesceDisplay (PCell.str a.product_display) PCell.zero }

/-- The merged row produced for a `sales_grp` row with no ad match: the
ad-side cells come from `fillna(0)`. -/
def mergeSalesRow (s : SalesGrpRow) : MergedRow :=
  { joinKey := s.joinKey, dateStr := s.dateStr
    std_spend := 0, std_ad_sales := 0
    std_gross_sales := s.std_gross_sales
    product_display_x := PCell.zero
    product_display_y := PCell.str s.product_display
    display_name := coalesceDisplay PCell.zero (PCell.str s.product_display) }

/-- `pd.merge(ad_grp, sales_grp, on=['join_key','date_str'],
how='outer').fillna(0)` followed by the display-name coalesce: matched
keys combine both sides, ad-only keys get 0 for the sales columns,
sales-only keys get 0 for the ad columns. -/
def mergeOuter (ads : List AdGrpRow) (sales : List SalesGrpRow) : List MergedRow :=
  (ads.map (mergeAdRow sales)) ++
  ((sales.filter (fun s =>
      !(ads.any (fun a => decide (a.joinKey = s.joinKey) && decide (a.dateStr = s.dateStr))))).map
    mergeSalesRow)

/-- One `ad_grp` row whose product display label is the empty string,
and one matching `sales_grp` row with a non-empty label. -/
def exAds : List AdGrpRow :=
  [⟨strCodes (r"x"), strCodes (r"2024-01-01"), 10, 5, []⟩]

/-- The sales-side row matching `exAds` on (join_key, date_str). -/
def exSales : List SalesGrpRow :=
  [⟨strCodes (r"x"), strCodes (r"2024-01-01"), 50, strCodes (r"Pad")⟩]

/-! ## Example inputs used by the claim theorems and witnesses -/

/-- Three records of one key across all three dates, with zero revenue
on the D-7 day: the SKU report's grand total then has a zero baseline. -/
def exRecsA : List BRec :=
  [⟨strCodes (r"A"), strCodes (r"F"), 0, 0, 1⟩,
   ⟨strCodes (r"A"), strCodes (r"F"), 6, 5, 1⟩,
   ⟨strCodes (r"A"), strCodes (r"F"), 7, 150, 2⟩]

/-- A working set in which one leaf's feeder warehouse label contains
the substring `Total`. -/
def exRecsB : List BRec :=
  [⟨strCodes (r"A"), strCodes (r"Total Hub"), 0, 10, 1⟩,
   ⟨strCodes (r"A"), strCodes (r"X"), 6, 5, 1⟩,
   ⟨strCodes (r"A"), strCodes (r"X"), 7, 20, 2⟩]

/-- A working set whose D-1 day has no data at all for any key. -/
def exRecsC : List BRec :=
  [⟨strCodes (r"S"), strCodes (r"A"), 0, 100, 1⟩,
   ⟨strCodes (r"S"), strCodes (r"A"), 7, 150, 2⟩]

/-- A working set with two SKU groups whose latest-day unit totals tie:
the ranking metric does not separate them, so the sort contract of
`sort_values` allows either group order. -/
def exRecsD : List BRec :=
  [⟨strCodes (r"A"), strCodes (r"F"), 0, 10, 1⟩,
   ⟨strCodes (r"A"), strCodes (r"F"), 7, 20, 3⟩,
   ⟨strCodes (r"B"), strCodes (r"F"), 7, 30, 3⟩]

/-- Adjacent weak descending order by an integer key. -/
def weaklyDescBy {α : Type} (key : α → ℤ) : List α → Bool
  | [] => true
  | [_] => true
  | a :: b :: rest => decide (key b ≤ key a) && weaklyDescBy key (b :: rest)

/-- The documented contract of `DataFrame.sort_values(by=key,
ascending=False)` with the default `kind='quicksort'`: the output is
some permutation of the input that is weakly sorted by the key
descending.  Nothing more is promised — in particular the arrangement
of tied keys is unspecified (the default sort is not stable). -/
def sortValuesOutput {α : Type} [DecidableEq α] (key : α → ℤ) (l l' : List α) : Bool :=
  l'.isPerm l && weaklyDescBy key l'

/-! ## Order lemmas for the embedded key orders -/

theorem codesLtB_irrefl (a : List Nat) : codesLtB a a = false := by
  induction a with
  | nil => rfl
  | cons c cs ih => simp [codesLtB, ih]

theorem codesLtB_asymm (a b : List Nat) (hab : codesLtB a b = true)
    (hba : codesLtB b a = true) : False := by
  induction a generalizing b with
  | nil => cases b <;> simp [codesLtB] at hab hba
  | cons c cs ih =>
    cases b with
    | nil => simp [codesLtB] at hab
    | cons d ds =>
      simp [codesLtB] at hab hba
      rcases hab with h1 | ⟨he1, h1⟩ <;> rcases hba with h2 | ⟨he2, h2⟩
      · omega
      · omega
      · omega
      · exact ih ds h1 h2

theorem codesLtB_trans (a b c : List Nat) (hab : codesLtB a b = true)
    (hbc : codesLtB b c = true) : codesLtB a c = true := by
  induction a generalizing b c with
  | nil =>
    cases b with
    | nil => simp [codesLtB] at hab
    | cons d ds => cases c with
      | nil => simp [codesLtB] at hbc
      | cons e es => simp [codesLtB]
  | cons x xs ih =>
    cases b with
    | nil => simp [codesLtB] at hab
    | cons d ds =>
      cases c with
      | nil => simp [codesLtB] at hbc
      | cons e es =>
        simp [codesLtB] at hab hbc ⊢
        rcases hab with h1 | ⟨he1, h1⟩ <;> rcases hbc with h2 | ⟨he2, h2⟩
        · exact Or.inl (by omega)
        · exact Or.inl (by omega)
        · exact Or.inl (by omega)
        · exact Or.inr ⟨by omega, ih ds es h1 h2⟩

theorem codesLtB_total (a b : List Nat) (hne : a ≠ b) :
    codesLtB a b = true ∨ codesLtB b a = true := by
  induction a generalizing b with
  | nil =>
    cases b with
    | nil => exact absurd rfl hne
    | cons d ds => exact Or.inl (by simp [codesLtB])
  | cons c cs ih =>
    cases b with
    | nil => exact Or.inr (by simp [codesLtB])
    | cons d ds =>
      by_cases hcd : c = d
      · subst hcd
        have hne' : cs ≠ ds := by intro h; exact hne (by rw [h])
        rcases ih ds hne' with h | h
        · exact Or.inl (by simp [codesLtB, h])
        · exact Or.inr (by simp [codesLtB, h])
      · rcases Nat.lt_or_ge c d with h | h
        · exact Or.inl (by simp [codesLtB]; omega)
        · have : d < c := by omega
          exact Or.inr (by simp [codesLtB]; omega)

theorem pairLtB_irrefl (a : List Nat × List Nat) : pairLtB a a = false := by
  simp [pairLtB, codesLtB_irrefl]

theorem pairLtB_asymm (a b : List Nat × List Nat) (hab : pairLtB a b = true)
    (hba : pairLtB b a = true) : False := by
  simp [pairLtB] at hab hba
  rcases hab with h1 | ⟨he1, h1⟩ <;> rcases hba with h2 | ⟨he2, h2⟩
  · exact codesLtB_asymm _ _ h1 h2
  · rw [he2] at h1; rw [codesLtB_irrefl] at h1; exact Bool.false_ne_true h1
  · rw [he1] at h2; rw [codesLtB_irrefl] at h2; exact Bool.false_ne_true h2
  · exact codesLtB_asymm _ _ h1 h2

theorem pairLtB_trans (a b c : List Nat × List Nat) (hab : pairLtB a b = true)
    (hbc : pairLtB b c = true) : pairLtB a c = true := by
  simp [pairLtB] at hab hbc ⊢
  rcases hab with h1 | ⟨he1, h1⟩ <;> rcases hbc with h2 | ⟨he2, h2⟩
  · exact Or.inl (codesLtB_trans _ _ _ h1 h2)
  · rw [he2] at h1; exact Or.inl h1
  · rw [he1]; exact Or.inl h2
  · exact Or.inr ⟨he1.trans he2, codesLtB_trans _ _ _ h1 h2⟩

theorem pairLtB_total (a b : List Nat × List Nat) (hne : a ≠ b) :
    pairLtB a b = true ∨ pairLtB b a = true := by
  by_cases h1 : a.1 = b.1
  · have h2 : a.2 ≠ b.2 := by
      intro h; exact hne (Prod.ext h1 h)
    rcases codesLtB_total a.2 b.2 h2 with h | h
    · exact Or.inl (by simp [pairLtB, h1, h])
    · exact Or.inr (by simp [pairLtB, h1.symm, h])
  · rcases codesLtB_total a.1 b.1 h1 with h | h
    · exact Or.inl (by simp [pairLtB, h])
    · exact Or.inr (by simp [pairLtB, h])


theorem mem_insertUniq {α : Type} [DecidableEq α] (lt : α → α → Bool) (x a : α)
    (l : List α) : a ∈ insertUniq lt x l ↔ a = x ∨ a ∈ l := by
  induction l with
  | nil => simp [insertUniq]
  | cons y ys ih =>
    by_cases hxy : x = y
    · subst hxy
      simp only [insertUniq, if_pos rfl]
      constructor
      · intro h; exact Or.inr h
      · rintro (h | h)
        · rw [h]; exact List.mem_cons_self _ _
        · exact h
    · by_cases hlt : lt x y = true
      · simp only [insertUniq, if_neg hxy, if_pos hlt]
        simp [List.mem_cons]
      · simp only [insertUniq, if_neg hxy, if_neg hlt]
        simp only [List.mem_cons, ih]
        tauto

theorem mem_sortedUniq {α : Type} [DecidableEq α] (lt : α → α → Bool) (l : List α)
    (a : α) : a ∈ sortedUniq lt l ↔ a ∈ l := by
  induction l with
  | nil => simp [sortedUniq]
  | cons y ys ih =>
    simp only [sortedUniq, List.foldr] at ih ⊢
    rw [mem_insertUniq, ih]
    simp

theorem pairwise_insertUniq {α : Type} [DecidableEq α] (lt : α → α → Bool)
    (htr : ∀ a b c, lt a b = true → lt b c = true → lt a c = true)
    (hto : ∀ a b, a ≠ b → lt a b = true ∨ lt b a = true)
    (x : α) (l : List α) (hl : l.Pairwise (fun a b => lt a b = true)) :
    (insertUniq lt x l).Pairwise (fun a b => lt a b = true) := by
  induction l with
  | nil => simp [insertUniq]
  | cons y ys ih =>
    rcases List.pairwise_cons.mp hl with ⟨hy, hys⟩
    by_cases hxy : x = y
    · subst hxy
      simpa only [insertUniq, if_pos rfl] using hl
    · by_cases hlt : lt x y = true
      · rw [insertUniq, if_neg hxy, if_pos hlt]
        refine List.pairwise_cons.mpr ⟨?_, hl⟩
        intro b hb
        rcases List.mem_cons.mp hb with h | h
        · rw [h]; exact hlt
        · exact htr _ _ _ hlt (hy b h)
      · rw [insertUniq, if_neg hxy, if_neg hlt]
        refine List.pairwise_cons.mpr ⟨?_, ih hys⟩
        intro b hb
        rcases (mem_insertUniq lt x b ys).mp hb with h | h
        · rw [h]
          rcases hto x y hxy with h' | h'
          · exact absurd h' hlt
          · exact h'
        · exact hy b h

theorem pairwise_sortedUniq {α : Type} [DecidableEq α] (lt : α → α → Bool)
    (htr : ∀ a b c, lt a b = true → lt b c = true → lt a c = true)
    (hto : ∀ a b, a ≠ b → lt a b = true ∨ lt b a = true)
    (l : List α) : (sortedUniq lt l).Pairwise (fun a b => lt a b = true) := by
  induction l with
  | nil => simp [sortedUniq]
  | cons y ys ih => exact pairwise_insertUniq lt htr hto y _ ih

theorem nodup_sortedUniq {α : Type} [DecidableEq α] (lt : α → α → Bool)
    (htr : ∀ a b c, lt a b = true → lt b c = true → lt a c = true)
    (hto : ∀ a b, a ≠ b → lt a b = true ∨ lt b a = true)
    (hir : ∀ a, lt a a = false)
    (l : List α) : (sortedUniq lt l).Nodup := by
  have h := pairwise_sortedUniq lt htr hto l
  refine h.imp ?_
  intro a b hab he
  rw [he] at hab
  rw [hir b] at hab
  exact Bool.false_ne_true hab

theorem sorted_eq_of_mem_iff {α : Type} (lt : α → α → Bool)
    (has : ∀ a b, lt a b = true → lt b a = true → False) :
    ∀ l₁ l₂ : List α, l₁.Pairwise (fun a b => lt a b = true) →
    l₂.Pairwise (fun a b => lt a b = true) →
    (∀ a, a ∈ l₁ ↔ a ∈ l₂) → l₁ = l₂ := by
  intro l₁
  induction l₁ with
  | nil =>
    intro l₂ _ _ hm
    cases l₂ with
    | nil => rfl
    | cons y ys => exact absurd ((hm y).mpr (List.mem_cons_self y ys)) (by simp)
  | cons x xs ih =>
    intro l₂ h₁ h₂ hm
    cases l₂ with
    | nil => exact absurd ((hm x).mp (List.mem_cons_self x xs)) (by simp)
    | cons y ys =>
      rcases List.pairwise_cons.mp h₁ with ⟨hx, hxs⟩
      rcases List.pairwise_cons.mp h₂ with ⟨hy, hys⟩
      have hirr : ∀ a : α, lt a a = true → False := fun a h => has a a h h
      have hxy : x = y := by
        by_contra hne
        have hxm : x ∈ y :: ys := (hm x).mp (List.mem_cons_self x xs)
        have hym : y ∈ x :: xs := (hm y).mpr (List.mem_cons_self y ys)
        rcases List.mem_cons.mp hxm with h | h
        · exact hne h
        · rcases List.mem_cons.mp hym with h' | h'
          · exact hne h'.symm
          · exact has x y (hx y h') (hy x h)
      subst hxy
      have hmem : ∀ a, a ∈ xs ↔ a ∈ ys := by
        intro a
        constructor
        · intro ha
          have hin : a ∈ x :: ys := (hm a).mp (List.mem_cons_of_mem x ha)
          rcases List.mem_cons.mp hin with h | h
          · rw [h] at ha
            exact absurd (hx x ha) (fun hc => hirr x hc)
          · exact h
        · intro ha
          have hin : a ∈ x :: xs := (hm a).mpr (List.mem_cons_of_mem x ha)
          rcases List.mem_cons.mp hin with h | h
          · rw [h] at ha
            exact absurd (hy x ha) (fun hc => hirr x hc)
          · exact h
      rw [ih ys hxs hys hmem]

theorem perm_insertByLt {α : Type} (lt : α → α → Bool) (x : α) (l : List α) :
    (insertByLt lt x l).Perm (x :: l) := by
  induction l with
  | nil => simp [insertByLt]
  | cons y ys ih =>
    by_cases h : lt y x = true
    · rw [insertByLt, if_pos h]
      exact ((ih.cons y).trans (List.Perm.swap x y ys))
    · rw [insertByLt, if_neg h]

theorem perm_sortByLt {α : Type} (lt : α → α → Bool) (l : List α) :
    (sortByLt lt l).Perm l := by
  induction l with
  | nil => simp [sortByLt]
  | cons x xs ih =>
    exact (perm_insertByLt lt x (sortByLt lt xs)).trans (ih.cons x)

theorem mem_sortByLt {α : Type} (lt : α → α → Bool) (l : List α) (a : α) :
    a ∈ sortByLt lt l ↔ a ∈ l :=
  (perm_sortByLt lt l).mem_iff

theorem pairwise_insertByLt_key {α : Type} (k : α → ℤ) (S : α → α → Prop)
    (x : α) (m : List α)
    (hm : m.Pairwise (fun a b => k b < k a ∨ (k a = k b ∧ S a b)))
    (hx : ∀ y ∈ m, S x y) :
    (insertByLt (fun a b => decide (k b < k a)) x m).Pairwise
      (fun a b => k b < k a ∨ (k a = k b ∧ S a b)) := by
  induction m with
  | nil => simp [insertByLt]
  | cons y ys ih =>
    rcases List.pairwise_cons.mp hm with ⟨hy, hys⟩
    by_cases h : k x < k y
    · rw [insertByLt, if_pos (by simpa using h)]
      refine List.pairwise_cons.mpr
        ⟨?_, ih hys (fun z hz => hx z (List.mem_cons_of_mem y hz))⟩
      intro b hb
      have hb2 : b ∈ x :: ys := (perm_insertByLt _ x ys).mem_iff.mp hb
      rcases List.mem_cons.mp hb2 with hb' | hb'
      · rw [hb']; exact Or.inl h
      · exact hy b hb'
    · rw [insertByLt, if_neg (by simpa using h)]
      refine List.pairwise_cons.mpr ⟨?_, hm⟩
      intro b hb
      rcases List.mem_cons.mp hb with hb' | hb'
      · rw [hb']
        rcases lt_or_eq_of_le (not_lt.mp h) with h' | h'
        · exact Or.inl h'
        · exact Or.inr ⟨h'.symm, hx y (List.mem_cons_self y ys)⟩
      · rcases hy b hb' with h' | ⟨he, hS⟩
        · exact Or.inl (by omega)
        · rcases lt_or_eq_of_le (not_lt.mp h) with h'' | h''
          · exact Or.inl (by omega)
          · exact Or.inr ⟨by omega, hx b (List.mem_cons_of_mem y hb')⟩

theorem pairwise_sortByLt_key {α : Type} (k : α → ℤ) (S : α → α → Prop)
    (l : List α) (hl : l.Pairwise S) :
    (sortByLt (fun a b => decide (k b < k a)) l).Pairwise
      (fun a b => k b < k a ∨ (k a = k b ∧ S a b)) := by
  induction l with
  | nil => simp [sortByLt]
  | cons x xs ih =>
    rcases List.pairwise_cons.mp hl with ⟨hx, hxs⟩
    rw [sortByLt]
    refine pairwise_insertByLt_key k S x _ (ih hxs) ?_
    intro y hy
    exact hx y ((perm_sortByLt _ xs).mem_iff.mp hy)

/-! ## Summation partition lemmas for the pivot semantics -/

theorem sum_map_addf {α M : Type} [AddCommMonoid M] (l : List α) (f g : α → M) :
    (l.map (fun a => f a + g a)).sum = (l.map f).sum + (l.map g).sum := by
  induction l with
  | nil => simp
  | cons x xs ih =>
    simp only [List.map_cons, List.sum_cons, ih]
    abel

theorem sum_map_ite_eq {κ M : Type} [DecidableEq κ] [AddCommMonoid M]
    (K : List κ) (hn : K.Nodup) (a : κ) (ha : a ∈ K) (x : M) :
    (K.map (fun c => if a = c then x else 0)).sum = x := by
  induction K with
  | nil => simp at ha
  | cons b bs ih =>
    rcases List.nodup_cons.mp hn with ⟨hb, hbs⟩
    rcases List.mem_cons.mp ha with h | h
    · subst h
      have hz : (bs.map (fun c => if a = c then x else 0)).sum = 0 := by
        apply List.sum_eq_zero
        intro y hy
        rcases List.mem_map.mp hy with ⟨c, hc, hcy⟩
        have : a ≠ c := fun he => hb (he ▸ hc)
        simp [this] at hcy
        exact hcy.symm
      simp [hz]
    · have hab : a ≠ b := fun he => hb (he ▸ h)
      simp only [List.map_cons, List.sum_cons, if_neg hab, ih hbs h, zero_add]

theorem sum_partition {α κ M : Type} [DecidableEq κ] [AddCommMonoid M]
    (l : List α) (K : List κ) (key : α → κ) (m : α → M)
    (hn : K.Nodup) (hmem : ∀ r ∈ l, key r ∈ K) :
    (K.map (fun c => ((l.filter (fun r => key r = c)).map m).sum)).sum =
      (l.map m).sum := by
  induction l with
  | nil => simp
  | cons r t ih =>
    have hsplit : ∀ c : κ, ((List.filter (fun x => decide (key x = c)) (r :: t)).map m).sum =
        (if key r = c then m r else 0) +
          ((t.filter (fun x => key x = c)).map m).sum := by
      intro c
      by_cases h : key r = c
      · simp [List.filter_cons, h]
      · simp [List.filter_cons, h]
    have hK : (K.map (fun c => ((List.filter (fun x => decide (key x = c)) (r :: t)).map m).sum)).sum =
        (K.map (fun c => (if key r = c then m r else 0))).sum +
          (K.map (fun c => ((t.filter (fun x => key x = c)).map m).sum)).sum := by
      rw [← sum_map_addf]
      congr 1
      apply List.map_congr_left
      intro c _
      exact hsplit c
    simp only [List.filter] at hK ⊢
    rw [hK]
    rw [sum_map_ite_eq K hn (key r) (hmem r (List.mem_cons_self r t)) (m r)]
    rw [ih (fun x hx => hmem x (List.mem_cons_of_mem r hx))]
    simp

/-! ## Substring characterization -/

theorem startsWithCodes_iff (p s : List Nat) :
    startsWithCodes p s = true ↔ ∃ t, s = p ++ t := by
  induction p generalizing s with
  | nil => simp [startsWithCodes]
  | cons c cs ih =>
    cases s with
    | nil =>
      simp [startsWithCodes]
    | cons d ds =>
      simp only [startsWithCodes, Bool.and_eq_true, decide_eq_true_eq, ih]
      constructor
      · rintro ⟨he, t, ht⟩
        exact ⟨t, by simp [he, ht]⟩
      · rintro ⟨t, ht⟩
        simp only [List.cons_append, List.cons.injEq] at ht
        exact ⟨ht.1.symm, t, ht.2⟩

theorem containsSub_iff (p s : List Nat) :
    containsSub p s = true ↔ ∃ u v, s = u ++ p ++ v := by
  induction s with
  | nil =>
    simp only [containsSub, startsWithCodes_iff]
    constructor
    · rintro ⟨t, ht⟩
      exact ⟨[], t, by simpa using ht⟩
    · rintro ⟨u, v, huv⟩
      rcases List.append_eq_nil.mp (List.append_eq_nil.mp huv.symm).1 with ⟨_, hp⟩
      exact ⟨v, by simp [hp, (List.append_eq_nil.mp huv.symm).2]⟩
  | cons c cs ih =>
    simp only [containsSub, Bool.or_eq_true, startsWithCodes_iff, ih]
    constructor
    · rintro (⟨t, ht⟩ | ⟨u, v, huv⟩)
      · exact ⟨[], t, by simpa using ht⟩
      · exact ⟨c :: u, v, by simp [huv]⟩
    · rintro ⟨u, v, huv⟩
      cases u with
      | nil => exact Or.inl ⟨v, by simpa using huv⟩
      | cons e es =>
        simp only [List.cons_append, List.cons.injEq] at huv
        exact Or.inr ⟨es, v, huv.2⟩

theorem containsSub_trans (p q s : List Nat) (hpq : containsSub p q = true)
    (hqs : containsSub q s = true) : containsSub p s = true := by
  rcases (containsSub_iff p q).mp hpq with ⟨u, v, huv⟩
  rcases (containsSub_iff q s).mp hqs with ⟨w, z, hwz⟩
  refine (containsSub_iff p s).mpr ⟨w ++ u, v ++ z, ?_⟩
  rw [hwz, huv]
  simp [List.append_assoc]

theorem containsSub_total_append (s : List Nat) :
    containsSub (strCodes (r"Total")) (s ++ strCodes (r" Total")) = true := by
  refine (containsSub_iff _ _).mpr ⟨s ++ [32], [], ?_⟩
  have h : strCodes (r" Total") = 32 :: strCodes (r"Total") := by decide
  rw [h]
  simp

/-! ## List plumbing helpers -/

theorem flatMap_congr_mem {α β : Type} (l : List α) (f g : α → List β)
    (h : ∀ a ∈ l, f a = g a) : l.flatMap f = l.flatMap g := by
  induction l with
  | nil => rfl
  | cons x xs ih =>
    simp only [List.flatMap_cons]
    rw [h x (List.mem_cons_self x xs), ih (fun a ha => h a (List.mem_cons_of_mem x ha))]

theorem filter_flatMap {α β : Type} (l : List α) (f : α → List β) (p : β → Bool) :
    (l.flatMap f).filter p = l.flatMap (fun a => (f a).filter p) := by
  induction l with
  | nil => rfl
  | cons x xs ih =>
    simp only [List.flatMap_cons, List.filter_append, ih]

theorem flatMap_single {α β : Type} [DecidableEq α] (l : List α) (hn : l.Nodup)
    (a : α) (ha : a ∈ l) (ys : List β) :
    l.flatMap (fun x => if x = a then ys else []) = ys := by
  induction l with
  | nil => simp at ha
  | cons b bs ih =>
    rcases List.nodup_cons.mp hn with ⟨hb, hbs⟩
    rcases List.mem_cons.mp ha with h | h
    · subst h
      have hz : bs.flatMap (fun x => if x = a then ys else []) = [] := by
        apply List.flatMap_eq_nil_iff.mpr
        intro x hx
        have : x ≠ a := fun he => hb (he ▸ hx)
        simp [this]
      simp [hz]
    · have hba : b ≠ a := fun he => hb (he ▸ h)
      simp [hba, ih hbs h]

/-! ## Lemmas about the title-casing fallback (C10) -/

theorem lowerCode_upperCode (c : Nat) : lowerCode (upperCode c) = lowerCode c := by
  unfold lowerCode upperCode
  split_ifs <;> omega

theorem lowerCode_lowerCode (c : Nat) : lowerCode (lowerCode c) = lowerCode c := by
  unfold lowerCode
  split_ifs <;> omega

theorem map_lowerCode_pyTitle (b : Bool) (n : List Nat) :
    (pyTitle b n).map lowerCode = n.map lowerCode := by
  induction n generalizing b with
  | nil => rfl
  | cons c cs ih =>
    simp only [pyTitle, List.map_cons, ih]
    congr 1
    by_cases ha : isAlphaCode c = true
    · rw [if_pos ha]
      cases b with
      | false => simp [lowerCode_upperCode]
      | true => simp [lowerCode_lowerCode]
    · rw [if_neg ha]

theorem map_lowerCode_idem (s : List Nat) :
    (s.map lowerCode).map lowerCode = s.map lowerCode := by
  rw [List.map_map]
  apply List.map_congr_left
  intro c _
  exact lowerCode_lowerCode c

/-! ## Structural lemmas for the citywise page -/

theorem nodup_cityKeys (rs : List BRec) : (cityKeys rs).Nodup :=
  nodup_sortedUniq pairLtB pairLtB_trans pairLtB_total pairLtB_irrefl _

theorem pairwise_cityKeys (rs : List BRec) :
    (cityKeys rs).Pairwise (fun a b => pairLtB a b = true) :=
  pairwise_sortedUniq pairLtB pairLtB_trans pairLtB_total _

theorem mem_cityKeys (rs : List BRec) (k : List Nat × List Nat) :
    k ∈ cityKeys rs ↔ k ∈ (filterPeriods rs).map (fun r => (r.feeder, r.sku)) :=
  mem_sortedUniq pairLtB _ k

theorem nodup_cityCols (rs : List BRec) : (cityCols rs).Nodup := by
  apply List.Nodup.filter
  have h1 : d7Date rs ≠ d1Date rs := by unfold d7Date d1Date; omega
  have h2 : d7Date rs ≠ latestDate rs := by unfold d7Date; omega
  have h3 : d1Date rs ≠ latestDate rs := by unfold d1Date; omega
  simp [List.nodup_cons, h1, h2, h3]

theorem find_cell_map (cols : List ℤ) (q : ℤ → ℤ) (v : ℤ → ℚ) (d : ℤ) (hd : d ∈ cols) :
    ((cols.map (fun e => CCell.mk e (q e) (v e))).find? (fun c => c.date = d)) =
      some ⟨d, q d, v d⟩ := by
  induction cols with
  | nil => simp at hd
  | cons e es ih =>
    by_cases h : e = d
    · subst h
      simp [List.find?]
    · have hd' : d ∈ es := by
        rcases List.mem_cons.mp hd with h' | h'
        · exact absurd h'.symm h
        · exact h'
      simp only [List.map_cons]
      rw [List.find?_cons_of_neg _ (by simpa using h)]
      exact ih hd'

theorem lookupCell_cityLeafRow (rs : List BRec) (k : List Nat × List Nat) (d : ℤ)
    (hd : d ∈ cityCols rs) :
    lookupCell (cityLeafRow rs k) d = some (cityQty rs k.1 k.2 d, cityRev rs k.1 k.2 d) := by
  unfold lookupCell cityLeafRow
  rw [find_cell_map _ _ _ _ hd]
  rfl

theorem lookupCell_citySubtotalRow (rs : List BRec) (f : List Nat) (d : ℤ)
    (hd : d ∈ cityCols rs) :
    lookupCell (citySubtotalRow rs f) d = some (citySubQty rs f d, citySubRev rs f d) := by
  unfold lookupCell citySubtotalRow
  rw [find_cell_map _ _ _ _ hd]
  rfl

theorem lookupCell_cityGrandRow (rs : List BRec) (d : ℤ) (hd : d ∈ cityCols rs) :
    lookupCell (cityGrandRow rs) d = some (cityGrandQty rs d, cityGrandRev rs d) := by
  unfold lookupCell cityGrandRow
  rw [find_cell_map _ _ _ _ hd]
  rfl

theorem filter_key_pred (rs : List BRec) (k : List Nat × List Nat) (d : ℤ) :
    (filterPeriods rs).filter (fun r => r.feeder = k.1 ∧ r.sku = k.2 ∧ r.date = d) =
      (filterPeriods rs).filter
        (fun a => decide ((a.feeder, a.sku) = k) && decide (a.date = d)) := by
  apply List.filter_congr
  intro r _
  by_cases h1 : r.date = d <;> by_cases h2 : r.feeder = k.1 <;> by_cases h3 : r.sku = k.2 <;>
    simp [h1, h2, h3, Prod.ext_iff]

theorem cityQty_filter_key (rs : List BRec) (k : List Nat × List Nat) (d : ℤ) :
    cityQty rs k.1 k.2 d =
      ((((filterPeriods rs).filter (fun r => r.date = d)).filter
        (fun r => (r.feeder, r.sku) = k)).map (fun r => r.quantity)).sum := by
  unfold cityQty
  rw [List.filter_filter, filter_key_pred]

theorem cityRev_filter_key (rs : List BRec) (k : List Nat × List Nat) (d : ℤ) :
    cityRev rs k.1 k.2 d =
      ((((filterPeriods rs).filter (fun r => r.date = d)).filter
        (fun r => (r.feeder, r.sku) = k)).map (fun r => r.net_revenue)).sum := by
  unfold cityRev
  rw [List.filter_filter, filter_key_pred]

theorem cityGrandQty_recordSum (rs : List BRec) (d : ℤ) :
    cityGrandQty rs d =
      (((filterPeriods rs).filter (fun r => r.date = d)).map (fun r => r.quantity)).sum := by
  unfold cityGrandQty
  have h1 : ((cityKeys rs).map (fun k => cityQty rs k.1 k.2 d)) =
      (cityKeys rs).map (fun k =>
        ((((filterPeriods rs).filter (fun r => r.date = d)).filter
          (fun r => (r.feeder, r.sku) = k)).map (fun r => r.quantity)).sum) := by
    apply List.map_congr_left
    intro k _
    exact cityQty_filter_key rs k d
  rw [h1]
  exact sum_partition ((filterPeriods rs).filter (fun r => r.date = d)) (cityKeys rs)
    (fun r => (r.feeder, r.sku)) (fun r => r.quantity) (nodup_cityKeys rs)
    (fun r hr => (mem_cityKeys rs _).mpr
      (List.mem_map.mpr ⟨r, (List.mem_filter.mp hr).1, rfl⟩))

theorem cityGrandRev_recordSum (rs : List BRec) (d : ℤ) :
    cityGrandRev rs d =
      (((filterPeriods rs).filter (fun r => r.date = d)).map (fun r => r.net_revenue)).sum := by
  unfold cityGrandRev
  have h1 : ((cityKeys rs).map (fun k => cityRev rs k.1 k.2 d)) =
      (cityKeys rs).map (fun k =>
        ((((filterPeriods rs).filter (fun r => r.date = d)).filter
          (fun r => (r.feeder, r.sku) = k)).map (fun r => r.net_revenue)).sum) := by
    apply List.map_congr_left
    intro k _
    exact cityRev_filter_key rs k d
  rw [h1]
  exact sum_partition ((filterPeriods rs).filter (fun r => r.date = d)) (cityKeys rs)
    (fun r => (r.feeder, r.sku)) (fun r => r.net_revenue) (nodup_cityKeys rs)
    (fun r hr => (mem_cityKeys rs _).mpr
      (List.mem_map.mpr ⟨r, (List.mem_filter.mp hr).1, rfl⟩))

theorem mem_cityGroupKeys_fst (rs : List BRec) (f : List Nat)
    (k : List Nat × List Nat) (hk : k ∈ cityGroupKeys rs f) : k.1 = f := by
  have h := (List.mem_filter.mp hk).2
  simpa using h

theorem pairwise_cityGroupSkus (rs : List BRec) (f : List Nat) :
    ((cityGroupKeys rs f).map (fun k => k.2)).Pairwise
      (fun a b => codesLtB a b = true) := by
  rw [List.pairwise_map]
  have hp : (cityGroupKeys rs f).Pairwise (fun a b => pairLtB a b = true) :=
    (pairwise_cityKeys rs).filter _
  apply List.Pairwise.imp_of_mem ?_ hp
  intro a b ha hb hab
  have hfa : a.1 = f := mem_cityGroupKeys_fst rs f a ha
  have hfb : b.1 = f := mem_cityGroupKeys_fst rs f b hb
  simp only [pairLtB, Bool.or_eq_true, Bool.and_eq_true, decide_eq_true_eq] at hab
  rcases hab with h | ⟨_, h⟩
  · rw [hfa, hfb] at h
    rw [codesLtB_irrefl] at h
    exact absurd h Bool.false_ne_true
  · exact h

theorem nodup_cityGroupSkus (rs : List BRec) (f : List Nat) :
    ((cityGroupKeys rs f).map (fun k => k.2)).Nodup := by
  refine (pairwise_cityGroupSkus rs f).imp ?_
  intro a b hab he
  rw [he, codesLtB_irrefl] at hab
  exact Bool.false_ne_true hab

theorem filter_sku_pred (rs : List BRec) (f s : List Nat) (d : ℤ) :
    (filterPeriods rs).filter (fun r => r.feeder = f ∧ r.sku = s ∧ r.date = d) =
      ((filterPeriods rs).filter (fun r => r.feeder = f ∧ r.date = d)).filter
        (fun r => r.sku = s) := by
  rw [List.filter_filter]
  apply List.filter_congr
  intro r _
  by_cases h1 : r.date = d <;> by_cases h2 : r.feeder = f <;> by_cases h3 : r.sku = s <;>
    simp [h1, h2, h3]

theorem citySubQty_recordSum (rs : List BRec) (f : List Nat) (d : ℤ) :
    citySubQty rs f d =
      (((filterPeriods rs).filter (fun r => r.feeder = f ∧ r.date = d)).map
        (fun r => r.quantity)).sum := by
  unfold citySubQty
  have h0 : ((cityGroupKeys rs f).map (fun k => cityQty rs f k.2 d)) =
      ((cityGroupKeys rs f).map (fun k => k.2)).map (fun s =>
        ((((filterPeriods rs).filter (fun r => r.feeder = f ∧ r.date = d)).filter
          (fun r => r.sku = s)).map (fun r => r.quantity)).sum) := by
    rw [List.map_map]
    apply List.map_congr_left
    intro k _
    simp only [Function.comp_apply]
    unfold cityQty
    rw [filter_sku_pred]
  rw [h0]
  apply sum_partition ((filterPeriods rs).filter (fun r => r.feeder = f ∧ r.date = d))
    ((cityGroupKeys rs f).map (fun k => k.2)) (fun r => r.sku) (fun r => r.quantity)
    (nodup_cityGroupSkus rs f)
  intro r hr
  rcases List.mem_filter.mp hr with ⟨hrp, hcond⟩
  simp only [decide_eq_true_eq] at hcond
  apply List.mem_map.mpr
  refine ⟨(f, r.sku), ?_, rfl⟩
  apply List.mem_filter.mpr
  constructor
  · rw [mem_cityKeys]
    exact List.mem_map.mpr ⟨r, hrp, by rw [hcond.1]⟩
  · simp

theorem citySubRev_recordSum (rs : List BRec) (f : List Nat) (d : ℤ) :
    citySubRev rs f d =
      (((filterPeriods rs).filter (fun r => r.feeder = f ∧ r.date = d)).map
        (fun r => r.net_revenue)).sum := by
  unfold citySubRev
  have h0 : ((cityGroupKeys rs f).map (fun k => cityRev rs f k.2 d)) =
      ((cityGroupKeys rs f).map (fun k => k.2)).map (fun s =>
        ((((filterPeriods rs).filter (fun r => r.feeder = f ∧ r.date = d)).filter
          (fun r => r.sku = s)).map (fun r => r.net_revenue)).sum) := by
    rw [List.map_map]
    apply List.map_congr_left
    intro k _
    simp only [Function.comp_apply]
    unfold cityRev
    rw [filter_sku_pred]
  rw [h0]
  apply sum_partition ((filterPeriods rs).filter (fun r => r.feeder = f ∧ r.date = d))
    ((cityGroupKeys rs f).map (fun k => k.2)) (fun r => r.sku) (fun r => r.net_revenue)
    (nodup_cityGroupSkus rs f)
  intro r hr
  rcases List.mem_filter.mp hr with ⟨hrp, hcond⟩
  simp only [decide_eq_true_eq] at hcond
  apply List.mem_map.mpr
  refine ⟨(f, r.sku), ?_, rfl⟩
  apply List.mem_filter.mpr
  constructor
  · rw [mem_cityKeys]
    exact List.mem_map.mpr ⟨r, hrp, by rw [hcond.1]⟩
  · simp

/-! ## Structural lemmas for the SKU Sales Report -/

theorem nodup_appKeys (rs : List BRec) : (appKeys rs).Nodup :=
  nodup_sortedUniq pairLtB pairLtB_trans pairLtB_total pairLtB_irrefl _

theorem pairwise_appKeys (rs : List BRec) :
    (appKeys rs).Pairwise (fun a b => pairLtB a b = true) :=
  pairwise_sortedUniq pairLtB pairLtB_trans pairLtB_total _

theorem mem_appKeys (rs : List BRec) (k : List Nat × List Nat) :
    k ∈ appKeys rs ↔ k ∈ (filterPeriods rs).map (fun r => (r.sku, r.feeder)) :=
  mem_sortedUniq pairLtB _ k

theorem nodup_appGroupSkus (rs : List BRec) : (appGroupSkus rs).Nodup :=
  nodup_sortedUniq codesLtB codesLtB_trans codesLtB_total codesLtB_irrefl _

theorem pairwise_appGroupSkus (rs : List BRec) :
    (appGroupSkus rs).Pairwise (fun a b => codesLtB a b = true) :=
  pairwise_sortedUniq codesLtB codesLtB_trans codesLtB_total _

theorem mem_appGroupSkus (rs : List BRec) (s : List Nat) :
    s ∈ appGroupSkus rs ↔ s ∈ (appKeys rs).map (fun k => k.1) :=
  mem_sortedUniq codesLtB _ s

theorem mem_appLeavesOf_sku (rs : List BRec) (s : List Nat) (row : SRow)
    (h : row ∈ appLeavesOf rs s) : row.sku = s := by
  rcases List.mem_map.mp h with ⟨k, hk, hrow⟩
  have := (List.mem_filter.mp hk).2
  simp only [decide_eq_true_eq] at this
  rw [← hrow]
  exact this

theorem mem_appLeavesOf_mem_keys (rs : List BRec) (s : List Nat) (row : SRow)
    (h : row ∈ appLeavesOf rs s) : ∃ k ∈ appKeys rs, row = appLeafRow rs k := by
  rcases List.mem_map.mp h with ⟨k, hk, hrow⟩
  exact ⟨k, (List.mem_filter.mp hk).1, hrow.symm⟩

theorem isTotalFeeder_appLeafRow (rs : List BRec) (hNT : noTotalName rs)
    (k : List Nat × List Nat) (hk : k ∈ appKeys rs) :
    isTotalFeeder (appLeafRow rs k) = false := by
  rcases List.mem_map.mp ((mem_appKeys rs k).mp hk) with ⟨rec, hrec, hkey⟩
  have hrs : rec ∈ rs := List.mem_of_mem_filter hrec
  have hfeeder : (appLeafRow rs k).feeder = rec.feeder := by
    rw [← hkey]
    rfl
  unfold isTotalFeeder
  rw [hfeeder]
  exact (hNT rec hrs).1

theorem isTotalFeeder_appSubtotalRow (rs : List BRec) (s : List Nat) :
    isTotalFeeder (appSubtotalRow rs s) = true := by
  unfold isTotalFeeder
  exact containsSub_total_append s

theorem appSourceRows_eq (rs : List BRec) (hNT : noTotalName rs) :
    appSourceRows rs = (appGroupSkus rs).flatMap (appLeavesOf rs) := by
  unfold appSourceRows appFinalDf
  rw [filter_flatMap]
  apply flatMap_congr_mem
  intro s hs
  rw [List.filter_append]
  have h1 : (appLeavesOf rs s).filter (fun row => !(isTotalFeeder row)) = appLeavesOf rs s := by
    apply List.filter_eq_self.mpr
    intro row hrow
    rcases mem_appLeavesOf_mem_keys rs s row hrow with ⟨k, hk, hrk⟩
    rw [hrk, isTotalFeeder_appLeafRow rs hNT k hk]
    rfl
  have h2 : ([appSubtotalRow rs s] : List SRow).filter (fun row => !(isTotalFeeder row)) = [] := by
    simp [isTotalFeeder_appSubtotalRow rs s]
  rw [h1, h2, List.append_nil]

theorem pairwise_flatMap_blocks {α β : Type} (R : β → β → Prop) (l : List α)
    (g : α → List β) (hR : ∀ a ∈ l, (g a).Pairwise R)
    (hcross : l.Pairwise (fun a b => ∀ x ∈ g a, ∀ y ∈ g b, R x y)) :
    (l.flatMap g).Pairwise R := by
  induction l with
  | nil => simp
  | cons a as ih =>
    simp only [List.flatMap_cons]
    rw [List.pairwise_append]
    rcases List.pairwise_cons.mp hcross with ⟨ha, has⟩
    refine ⟨hR a (List.mem_cons_self a as),
      ih (fun b hb => hR b (List.mem_cons_of_mem a hb)) has, ?_⟩
    intro x hx y hy
    rcases List.mem_flatMap.mp hy with ⟨b, hb, hyb⟩
    exact ha b hb x hx y hyb

theorem filter_eq_singleton_of_nodup {α : Type} [DecidableEq α] (l : List α)
    (hn : l.Nodup) (k : α) (hk : k ∈ l) : l.filter (fun x => x = k) = [k] := by
  induction l with
  | nil => simp at hk
  | cons b bs ih =>
    rcases List.nodup_cons.mp hn with ⟨hb, hbs⟩
    by_cases hbk : b = k
    · subst hbk
      have hz : bs.filter (fun x => x = b) = [] := by
        apply List.filter_eq_nil_iff.mpr
        intro x hx
        simp only [decide_eq_true_eq]
        intro he
        exact hb (he ▸ hx)
      simp [List.filter_cons, hz]
    · have hk2 : k ∈ bs := by
        rcases List.mem_cons.mp hk with h | h
        · exact absurd h.symm hbk
        · exact h
      simp [List.filter_cons, hbk, ih hbs hk2]

theorem appKeys_partition (rs : List BRec) :
    (appGroupSkus rs).flatMap (fun s => (appKeys rs).filter (fun k => k.1 = s)) =
      appKeys rs := by
  apply sorted_eq_of_mem_iff pairLtB pairLtB_asymm
  · apply pairwise_flatMap_blocks
    · intro s _
      exact (pairwise_appKeys rs).filter _
    · refine List.Pairwise.imp ?_ (pairwise_appGroupSkus rs)
      intro s s' hss x hx y hy
      have hxs : x.1 = s := by
        have := (List.mem_filter.mp hx).2
        simpa using this
      have hys : y.1 = s' := by
        have := (List.mem_filter.mp hy).2
        simpa using this
      unfold pairLtB
      rw [hxs, hys, hss]
      simp
  · exact pairwise_appKeys rs
  · intro k
    constructor
    · intro hk
      rcases List.mem_flatMap.mp hk with ⟨s, _, hks⟩
      exact (List.mem_filter.mp hks).1
    · intro hk
      apply List.mem_flatMap.mpr
      refine ⟨k.1, ?_, ?_⟩
      · exact (mem_appGroupSkus rs k.1).mpr (List.mem_map.mpr ⟨k, hk, rfl⟩)
      · exact List.mem_filter.mpr ⟨hk, by simp⟩

theorem appSourceRows_map_leaf (rs : List BRec) (hNT : noTotalName rs) :
    appSourceRows rs = (appKeys rs).map (appLeafRow rs) := by
  rw [appSourceRows_eq rs hNT]
  unfold appLeavesOf
  rw [← List.map_flatMap]
  rw [appKeys_partition rs]

theorem appSourceRows_filter_sku (rs : List BRec) (hNT : noTotalName rs) (s : List Nat) :
    (appSourceRows rs).filter (fun row => row.sku = s) = appLeavesOf rs s := by
  rw [appSourceRows_map_leaf rs hNT]
  rw [List.filter_map]
  unfold appLeavesOf
  congr 1

theorem appSourceRows_filter_key (rs : List BRec) (hNT : noTotalName rs)
    (k : List Nat × List Nat) (hk : k ∈ appKeys rs) :
    (appSourceRows rs).filter (fun row => row.sku = k.1 ∧ row.feeder = k.2) =
      [appLeafRow rs k] := by
  rw [appSourceRows_map_leaf rs hNT]
  rw [List.filter_map]
  have h : (appKeys rs).filter
      ((fun row => decide (row.sku = k.1 ∧ row.feeder = k.2)) ∘ appLeafRow rs) =
      (appKeys rs).filter (fun x => x = k) := by
    apply List.filter_congr
    intro x _
    by_cases h1 : x.1 = k.1 <;> by_cases h2 : x.2 = k.2 <;>
      simp [appLeafRow, h1, h2, Prod.ext_iff, Function.comp]
  rw [h, filter_eq_singleton_of_nodup _ (nodup_appKeys rs) k hk]
  rfl

theorem appSubtotalRow_sku (rs : List BRec) (s : List Nat) :
    (appSubtotalRow rs s).sku = s := rfl

theorem appSubtotalRow_qCur (rs : List BRec) (s : List Nat) :
    (appSubtotalRow rs s).qCur = ((appLeavesOf rs s).map (fun row => row.qCur)).sum := rfl

theorem appSkuTotalsBase_eq (rs : List BRec) (hNT : noTotalName rs) :
    appSkuTotalsBase rs = appGroupSkus rs := by
  unfold appSkuTotalsBase
  apply sorted_eq_of_mem_iff codesLtB codesLtB_asymm
  · exact pairwise_sortedUniq _ codesLtB_trans codesLtB_total _
  · exact pairwise_appGroupSkus rs
  · intro s
    rw [mem_sortedUniq]
    rw [appSourceRows_map_leaf rs hNT, List.map_map]
    constructor
    · intro h
      rcases List.mem_map.mp h with ⟨k, hk, hks⟩
      exact (mem_appGroupSkus rs s).mpr (List.mem_map.mpr ⟨k, hk, by rw [← hks]; rfl⟩)
    · intro h
      rcases List.mem_map.mp ((mem_appGroupSkus rs s).mp h) with ⟨k, hk, hks⟩
      exact List.mem_map.mpr ⟨k, hk, by rw [← hks]; rfl⟩

theorem appSkuTotal_eq_subtotal (rs : List BRec) (hNT : noTotalName rs) (s : List Nat) :
    appSkuTotal rs s = (appSubtotalRow rs s).qCur := by
  unfold appSkuTotal
  rw [appSourceRows_filter_sku rs hNT s, appSubtotalRow_qCur]

theorem appFeederTotal_eq_leaf (rs : List BRec) (hNT : noTotalName rs)
    (k : List Nat × List Nat) (hk : k ∈ appKeys rs) :
    appFeederTotal rs k.1 k.2 = (appLeafRow rs k).qCur := by
  unfold appFeederTotal
  rw [appSourceRows_filter_key rs hNT k hk]
  simp

theorem pairwise_appLeavesOf (rs : List BRec) (s : List Nat) :
    (appLeavesOf rs s).Pairwise (fun a b => codesLtB a.feeder b.feeder = true) := by
  unfold appLeavesOf
  rw [List.pairwise_map]
  have hp := (pairwise_appKeys rs).filter (fun k => decide (k.1 = s))
  apply List.Pairwise.imp_of_mem ?_ hp
  intro a b ha hb hab
  have has : a.1 = s := by simpa using (List.mem_filter.mp ha).2
  have hbs : b.1 = s := by simpa using (List.mem_filter.mp hb).2
  simp only [pairLtB, Bool.or_eq_true, Bool.and_eq_true, decide_eq_true_eq] at hab
  rcases hab with h | ⟨_, h⟩
  · rw [has, hbs, codesLtB_irrefl] at h
    exact absurd h Bool.false_ne_true
  · exact h

theorem appFinalDf_filter_total (rs : List BRec) (hNT : noTotalName rs)
    (s : List Nat) (hs : s ∈ appGroupSkus rs) :
    (appFinalDf rs).filter (fun row => decide (row.sku = s) && isTotalFeeder row) =
      [appSubtotalRow rs s] := by
  unfold appFinalDf
  rw [filter_flatMap]
  have hcongr : ∀ s' ∈ appGroupSkus rs,
      (appLeavesOf rs s' ++ [appSubtotalRow rs s']).filter
        (fun row => decide (row.sku = s) && isTotalFeeder row) =
      (if s' = s then [appSubtotalRow rs s] else []) := by
    intro s' _
    rw [List.filter_append]
    have h1 : (appLeavesOf rs s').filter
        (fun row => decide (row.sku = s) && isTotalFeeder row) = [] := by
      apply List.filter_eq_nil_iff.mpr
      intro row hrow
      rcases mem_appLeavesOf_mem_keys rs s' row hrow with ⟨k, hk, hrk⟩
      rw [hrk, isTotalFeeder_appLeafRow rs hNT k hk]
      simp
    have h2 : ([appSubtotalRow rs s'] : List SRow).filter
        (fun row => decide (row.sku = s) && isTotalFeeder row) =
        if s' = s then [appSubtotalRow rs s] else [] := by
      by_cases he : s' = s
      · subst he
        simp [List.filter_cons, isTotalFeeder_appSubtotalRow, appSubtotalRow_sku]
      · simp [List.filter_cons, isTotalFeeder_appSubtotalRow, appSubtotalRow_sku, he]
    rw [h1, h2]
    simp
  rw [flatMap_congr_mem _ _ _ hcongr]
  exact flatMap_single _ (nodup_appGroupSkus rs) s hs _

theorem mem_appSkuOrder_iff (rs : List BRec) (hNT : noTotalName rs) (s : List Nat) :
    s ∈ appSkuOrder rs ↔ s ∈ appGroupSkus rs := by
  unfold appSkuOrder
  rw [mem_sortByLt, appSkuTotalsBase_eq rs hNT]

theorem appOrderedRows_blocks (rs : List BRec) (hNT : noTotalName rs) :
    appOrderedRows rs =
      (appSkuOrder rs).flatMap (fun s => appSkuRowsSorted rs s ++ [appSubtotalRow rs s]) := by
  unfold appOrderedRows
  apply flatMap_congr_mem
  intro s hs
  congr 1
  exact appFinalDf_filter_total rs hNT s ((mem_appSkuOrder_iff rs hNT s).mp hs)

theorem perm_appSkuOrder (rs : List BRec) (hNT : noTotalName rs) :
    (appSkuOrder rs).Perm (appGroupSkus rs) := by
  unfold appSkuOrder
  rw [appSkuTotalsBase_eq rs hNT]
  exact perm_sortByLt _ _

theorem pairwise_appSkuOrder (rs : List BRec) (hNT : noTotalName rs) :
    (appSkuOrder rs).Pairwise (fun a b =>
      (appSubtotalRow rs b).qCur < (appSubtotalRow rs a).qCur ∨
      ((appSubtotalRow rs a).qCur = (appSubtotalRow rs b).qCur ∧ codesLtB a b = true)) := by
  have h0 : (appSkuTotalsBase rs).Pairwise (fun a b => codesLtB a b = true) := by
    rw [appSkuTotalsBase_eq rs hNT]
    exact pairwise_appGroupSkus rs
  have h1 := pairwise_sortByLt_key (appSkuTotal rs)
    (fun a b => codesLtB a b = true) (appSkuTotalsBase rs) h0
  apply List.Pairwise.imp_of_mem ?_ h1
  intro a b _ _ hab
  have hsa : appSkuTotal rs a = (appSubtotalRow rs a).qCur := appSkuTotal_eq_subtotal rs hNT a
  have hsb : appSkuTotal rs b = (appSubtotalRow rs b).qCur := appSkuTotal_eq_subtotal rs hNT b
  rcases hab with h | ⟨he, hS⟩
  · exact Or.inl (by rw [← hsa, ← hsb]; exact h)
  · exact Or.inr ⟨by rw [← hsa, ← hsb]; exact he, hS⟩

theorem perm_appSkuRowsSorted (rs : List BRec) (hNT : noTotalName rs) (s : List Nat) :
    (appSkuRowsSorted rs s).Perm (appLeavesOf rs s) := by
  unfold appSkuRowsSorted
  rw [appSourceRows_filter_sku rs hNT s]
  exact perm_sortByLt _ _

theorem pairwise_appSkuRowsSorted (rs : List BRec) (hNT : noTotalName rs) (s : List Nat) :
    (appSkuRowsSorted rs s).Pairwise (fun a b =>
      b.qCur < a.qCur ∨ (a.qCur = b.qCur ∧ codesLtB a.feeder b.feeder = true)) := by
  have h0 : ((appSourceRows rs).filter (fun row => row.sku = s)).Pairwise
      (fun a b => codesLtB a.feeder b.feeder = true) := by
    rw [appSourceRows_filter_sku rs hNT s]
    exact pairwise_appLeavesOf rs s
  have h1 := pairwise_sortByLt_key (fun row : SRow => appFeederTotal rs s row.feeder)
    (fun a b : SRow => codesLtB a.feeder b.feeder = true) _ h0
  apply List.Pairwise.imp_of_mem ?_ h1
  intro a b ha hb hab
  have hmema : a ∈ appLeavesOf rs s := by
    have hm := (mem_sortByLt _ _ a).mp ha
    rw [appSourceRows_filter_sku rs hNT s] at hm
    exact hm
  have hmemb : b ∈ appLeavesOf rs s := by
    have hm := (mem_sortByLt _ _ b).mp hb
    rw [appSourceRows_filter_sku rs hNT s] at hm
    exact hm
  obtain ⟨ka, hka, hrka⟩ := mem_appLeavesOf_mem_keys rs s a hmema
  obtain ⟨kb, hkb, hrkb⟩ := mem_appLeavesOf_mem_keys rs s b hmemb
  have hsa : ka.1 = s := by
    have h := mem_appLeavesOf_sku rs s a hmema
    rw [hrka] at h
    exact h
  have hsb : kb.1 = s := by
    have h := mem_appLeavesOf_sku rs s b hmemb
    rw [hrkb] at h
    exact h
  have hfa : appFeederTotal rs s a.feeder = a.qCur := by
    rw [hrka, ← hsa]
    exact appFeederTotal_eq_leaf rs hNT ka hka
  have hfb : appFeederTotal rs s b.feeder = b.qCur := by
    rw [hrkb, ← hsb]
    exact appFeederTotal_eq_leaf rs hNT kb hkb
  rcases hab with h | ⟨he, hS⟩
  · exact Or.inl (by rw [← hfa, ← hfb]; exact h)
  · exact Or.inr ⟨by rw [← hfa, ← hfb]; exact he, hS⟩

/-! ## Aggregate-sum lemmas for the SKU Sales Report (C2) -/

theorem filter_key_pred_app (rs : List BRec) (k : List Nat × List Nat) (d : ℤ) :
    (filterPeriods rs).filter (fun r => r.sku = k.1 ∧ r.feeder = k.2 ∧ r.date = d) =
      (filterPeriods rs).filter
        (fun a => decide ((a.sku, a.feeder) = k) && decide (a.date = d)) := by
  apply List.filter_congr
  intro r _
  by_cases h1 : r.date = d <;> by_cases h2 : r.sku = k.1 <;> by_cases h3 : r.feeder = k.2 <;>
    simp [h1, h2, h3, Prod.ext_iff]

theorem appQty_filter_key (rs : List BRec) (k : List Nat × List Nat) (d : ℤ) :
    appQty rs k.1 k.2 d =
      ((((filterPeriods rs).filter (fun r => r.date = d)).filter
        (fun r => (r.sku, r.feeder) = k)).map (fun r => r.quantity)).sum := by
  unfold appQty
  rw [List.filter_filter, filter_key_pred_app]

theorem appRev_filter_key (rs : List BRec) (k : List Nat × List Nat) (d : ℤ) :
    appRev rs k.1 k.2 d =
      ((((filterPeriods rs).filter (fun r => r.date = d)).filter
        (fun r => (r.sku, r.feeder) = k)).map (fun r => r.net_revenue)).sum := by
  unfold appRev
  rw [List.filter_filter, filter_key_pred_app]

theorem appLeafSumQty_recordSum (rs : List BRec) (d : ℤ) :
    ((appKeys rs).map (fun k => appQty rs k.1 k.2 d)).sum =
      (((filterPeriods rs).filter (fun r => r.date = d)).map (fun r => r.quantity)).sum := by
  have h1 : ((appKeys rs).map (fun k => appQty rs k.1 k.2 d)) =
      (appKeys rs).map (fun k =>
        ((((filterPeriods rs).filter (fun r => r.date = d)).filter
          (fun r => (r.sku, r.feeder) = k)).map (fun r => r.quantity)).sum) := by
    apply List.map_congr_left
    intro k _
    exact appQty_filter_key rs k d
  rw [h1]
  exact sum_partition ((filterPeriods rs).filter (fun r => r.date = d)) (appKeys rs)
    (fun r => (r.sku, r.feeder)) (fun r => r.quantity) (nodup_appKeys rs)
    (fun r hr => (mem_appKeys rs _).mpr
      (List.mem_map.mpr ⟨r, (List.mem_filter.mp hr).1, rfl⟩))

theorem appLeafSumRev_recordSum (rs : List BRec) (d : ℤ) :
    ((appKeys rs).map (fun k => appRev rs k.1 k.2 d)).sum =
      (((filterPeriods rs).filter (fun r => r.date = d)).map (fun r => r.net_revenue)).sum := by
  have h1 : ((appKeys rs).map (fun k => appRev rs k.1 k.2 d)) =
      (appKeys rs).map (fun k =>
        ((((filterPeriods rs).filter (fun r => r.date = d)).filter
          (fun r => (r.sku, r.feeder) = k)).map (fun r => r.net_revenue)).sum) := by
    apply List.map_congr_left
    intro k _
    exact appRev_filter_key rs k d
  rw [h1]
  exact sum_partition ((filterPeriods rs).filter (fun r => r.date = d)) (appKeys rs)
    (fun r => (r.sku, r.feeder)) (fun r => r.net_revenue) (nodup_appKeys rs)
    (fun r hr => (mem_appKeys rs _).mpr
      (List.mem_map.mpr ⟨r, (List.mem_filter.mp hr).1, rfl⟩))

theorem nodup_appGroupFeeders (rs : List BRec) (s : List Nat) :
    (((appKeys rs).filter (fun k => k.1 = s)).map (fun k => k.2)).Nodup := by
  have hp : (((appKeys rs).filter (fun k => k.1 = s)).map (fun k => k.2)).Pairwise
      (fun a b => codesLtB a b = true) := by
    rw [List.pairwise_map]
    have hpk := (pairwise_appKeys rs).filter (fun k => decide (k.1 = s))
    apply List.Pairwise.imp_of_mem ?_ hpk
    intro a b ha hb hab
    have has : a.1 = s := by simpa using (List.mem_filter.mp ha).2
    have hbs : b.1 = s := by simpa using (List.mem_filter.mp hb).2
    simp only [pairLtB, Bool.or_eq_true, Bool.and_eq_true, decide_eq_true_eq] at hab
    rcases hab with h | ⟨_, h⟩
    · rw [has, hbs, codesLtB_irrefl] at h
      exact absurd h Bool.false_ne_true
    · exact h
  refine hp.imp ?_
  intro a b hab he
  rw [he, codesLtB_irrefl] at hab
  exact Bool.false_ne_true hab

theorem filter_feeder_pred_app (rs : List BRec) (s f : List Nat) (d : ℤ) :
    (filterPeriods rs).filter (fun r => r.sku = s ∧ r.feeder = f ∧ r.date = d) =
      ((filterPeriods rs).filter (fun r => r.sku = s ∧ r.date = d)).filter
        (fun r => r.feeder = f) := by
  rw [List.filter_filter]
  apply List.filter_congr
  intro r _
  by_cases h1 : r.date = d <;> by_cases h2 : r.sku = s <;> by_cases h3 : r.feeder = f <;>
    simp [h1, h2, h3]

theorem appGroupSumQty_recordSum (rs : List BRec) (s : List Nat) (d : ℤ) :
    (((appKeys rs).filter (fun k => k.1 = s)).map (fun k => appQty rs k.1 k.2 d)).sum =
      (((filterPeriods rs).filter (fun r => r.sku = s ∧ r.date = d)).map
        (fun r => r.quantity)).sum := by
  have h0 : (((appKeys rs).filter (fun k => k.1 = s)).map (fun k => appQty rs k.1 k.2 d)) =
      (((appKeys rs).filter (fun k => k.1 = s)).map (fun k => k.2)).map (fun f =>
        ((((filterPeriods rs).filter (fun r => r.sku = s ∧ r.date = d)).filter
          (fun r => r.feeder = f)).map (fun r => r.quantity)).sum) := by
    rw [List.map_map]
    apply List.map_congr_left
    intro k hk
    have hks : k.1 = s := by simpa using (List.mem_filter.mp hk).2
    simp only [Function.comp_apply]
    rw [← filter_feeder_pred_app]
    unfold appQty
    rw [hks]
  rw [h0]
  apply sum_partition ((filterPeriods rs).filter (fun r => r.sku = s ∧ r.date = d))
    (((appKeys rs).filter (fun k => k.1 = s)).map (fun k => k.2)) (fun r => r.feeder)
    (fun r => r.quantity) (nodup_appGroupFeeders rs s)
  intro r hr
  rcases List.mem_filter.mp hr with ⟨hrp, hcond⟩
  simp only [decide_eq_true_eq] at hcond
  apply List.mem_map.mpr
  refine ⟨(s, r.feeder), ?_, rfl⟩
  apply List.mem_filter.mpr
  constructor
  · rw [mem_appKeys]
    exact List.mem_map.mpr ⟨r, hrp, by rw [hcond.1]⟩
  · simp

theorem appGroupSumRev_recordSum (rs : List BRec) (s : List Nat) (d : ℤ) :
    (((appKeys rs).filter (fun k => k.1 = s)).map (fun k => appRev rs k.1 k.2 d)).sum =
      (((filterPeriods rs).filter (fun r => r.sku = s ∧ r.date = d)).map
        (fun r => r.net_revenue)).sum := by
  have h0 : (((appKeys rs).filter (fun k => k.1 = s)).map (fun k => appRev rs k.1 k.2 d)) =
      (((appKeys rs).filter (fun k => k.1 = s)).map (fun k => k.2)).map (fun f =>
        ((((filterPeriods rs).filter (fun r => r.sku = s ∧ r.date = d)).filter
          (fun r => r.feeder = f)).map (fun r => r.net_revenue)).sum) := by
    rw [List.map_map]
    apply List.map_congr_left
    intro k hk
    have hks : k.1 = s := by simpa using (List.mem_filter.mp hk).2
    simp only [Function.comp_apply]
    rw [← filter_feeder_pred_app]
    unfold appRev
    rw [hks]
  rw [h0]
  apply sum_partition ((filterPeriods rs).filter (fun r => r.sku = s ∧ r.date = d))
    (((appKeys rs).filter (fun k => k.1 = s)).map (fun k => k.2)) (fun r => r.feeder)
    (fun r => r.net_revenue) (nodup_appGroupFeeders rs s)
  intro r hr
  rcases List.mem_filter.mp hr with ⟨hrp, hcond⟩
  simp only [decide_eq_true_eq] at hcond
  apply List.mem_map.mpr
  refine ⟨(s, r.feeder), ?_, rfl⟩
  apply List.mem_filter.mpr
  constructor
  · rw [mem_appKeys]
    exact List.mem_map.mpr ⟨r, hrp, by rw [hcond.1]⟩
  · simp

/-! ## Field-projection lemmas and literal-arithmetic helpers -/

theorem appGrandRow_rD7 (rs : List BRec) :
    (appGrandRow rs).rD7 = ((appSourceRows rs).map (fun row => row.rD7)).sum := rfl

theorem appGrandRow_rCur (rs : List BRec) :
    (appGrandRow rs).rCur = ((appSourceRows rs).map (fun row => row.rCur)).sum := rfl

theorem appGrandRow_growth (rs : List BRec) :
    (appGrandRow rs).growth = GCell.num (pyRound2
      ((((appSourceRows rs).map (fun row => row.rCur)).sum -
          ((appSourceRows rs).map (fun row => row.rD7)).sum) /
        (if ((appSourceRows rs).map (fun row => row.rD7)).sum ≠ 0 then
          ((appSourceRows rs).map (fun row => row.rD7)).sum
         else 1) * 100)) := rfl

theorem roundHalfEven_int (n : ℤ) : roundHalfEven (n : ℚ) = n := by
  unfold roundHalfEven
  rw [Int.floor_intCast]
  norm_num

theorem pyRound2_int (n : ℤ) : pyRound2 (n : ℚ) = (n * 100 : ℤ) / (100 : ℚ) := by
  unfold pyRound2
  have h : ((n : ℚ) * 100) = ((n * 100 : ℤ) : ℚ) := by push_cast; ring
  rw [h, roundHalfEven_int]

/-! ## Helpers for the claim theorems -/

theorem app_leafSum_keys {M : Type} [AddCommMonoid M] (rs : List BRec)
    (hNT : noTotalName rs) (g : SRow → M) (gk : List Nat × List Nat → M)
    (hg : ∀ k, g (appLeafRow rs k) = gk k) :
    (((appGroupSkus rs).flatMap (appLeavesOf rs)).map g).sum =
      ((appKeys rs).map gk).sum := by
  rw [← appSourceRows_eq rs hNT, appSourceRows_map_leaf rs hNT, List.map_map]
  congr 1
  apply List.map_congr_left
  intro k _
  exact hg k

theorem app_groupSum_keys {M : Type} [AddCommMonoid M] (rs : List BRec) (s : List Nat)
    (g : SRow → M) (gk : List Nat × List Nat → M)
    (hg : ∀ k, g (appLeafRow rs k) = gk k) :
    ((appLeavesOf rs s).map g).sum =
      (((appKeys rs).filter (fun k => k.1 = s)).map gk).sum := by
  unfold appLeavesOf
  rw [List.map_map]
  congr 1
  apply List.map_congr_left
  intro k _
  exact hg k

theorem no_total_ne_grand (x : List Nat)
    (hx : containsSub (strCodes (r"Total")) x = false) :
    decide (x = strCodes (r"Grand Total")) = false := by
  apply decide_eq_false
  intro he
  rw [he] at hx
  exact absurd hx (by decide)

theorem cityKeys_no_total (rs : List BRec) (hNT : noTotalName rs)
    (k : List Nat × List Nat) (hk : k ∈ cityKeys rs) :
    containsSub (strCodes (r"Total")) k.1 = false ∧
      containsSub (strCodes (r"Total")) k.2 = false := by
  rcases List.mem_map.mp ((mem_cityKeys rs k).mp hk) with ⟨rec, hrec, hkey⟩
  have hrs : rec ∈ rs := List.mem_of_mem_filter hrec
  rw [← hkey]
  exact ⟨(hNT rec hrs).1, (hNT rec hrs).2⟩

theorem appKeys_no_total (rs : List BRec) (hNT : noTotalName rs)
    (k : List Nat × List Nat) (hk : k ∈ appKeys rs) :
    containsSub (strCodes (r"Total")) k.1 = false ∧
      containsSub (strCodes (r"Total")) k.2 = false := by
  rcases List.mem_map.mp ((mem_appKeys rs k).mp hk) with ⟨rec, hrec, hkey⟩
  have hrs : rec ∈ rs := List.mem_of_mem_filter hrec
  rw [← hkey]
  exact ⟨(hNT rec hrs).2, (hNT rec hrs).1⟩

theorem mem_appFinalDf_cases (rs : List BRec) (row : SRow) (h : row ∈ appFinalDf rs) :
    (∃ k ∈ appKeys rs, row = appLeafRow rs k) ∨
      (∃ s ∈ appGroupSkus rs, row = appSubtotalRow rs s) := by
  unfold appFinalDf at h
  rcases List.mem_flatMap.mp h with ⟨s, hs, hrow⟩
  rcases List.mem_append.mp hrow with h1 | h1
  · rcases mem_appLeavesOf_mem_keys rs s row h1 with ⟨k, hk, hrk⟩
    exact Or.inl ⟨k, hk, hrk⟩
  · rw [List.mem_singleton] at h1
    exact Or.inr ⟨s, hs, h1⟩

theorem carriesNum_citySubtotalRow (rs : List BRec) (f : List Nat) :
    carriesNum (citySubtotalRow rs f).growth = true := by
  by_cases h : cityHasDeltaCols rs = true <;>
    simp [citySubtotalRow, h, carriesNum]

theorem carriesNum_cityGrandRow (rs : List BRec) :
    carriesNum (cityGrandRow rs).growth = true := by
  by_cases h : cityHasDeltaCols rs = true <;>
    simp [cityGrandRow, h, carriesNum]

theorem carriesNum_appSubtotalRow (rs : List BRec) (s : List Nat) :
    carriesNum (appSubtotalRow rs s).growth = true := rfl

theorem carriesNum_appGrandRow (rs : List BRec) :
    carriesNum (appGrandRow rs).growth = true := rfl

theorem carriesNum_appLeafRow (rs : List BRec) (k : List Nat × List Nat) :
    carriesNum (appLeafRow rs k).growth = false := rfl

theorem carriesNum_cityLeafRow (rs : List BRec) (k : List Nat × List Nat) :
    carriesNum (cityLeafRow rs k).growth = false := rfl

theorem citySubtotalRow_sku (rs : List BRec) (f : List Nat) :
    (citySubtotalRow rs f).sku = f ++ strCodes (r" Total") := rfl

theorem cityGrandRow_feeder (rs : List BRec) :
    (cityGrandRow rs).feeder = strCodes (r"Grand Total") := rfl

theorem appGrandRow_sku (rs : List BRec) :
    (appGrandRow rs).sku = strCodes (r"Grand Total") := rfl

theorem appSubtotalRow_feeder (rs : List BRec) (s : List Nat) :
    (appSubtotalRow rs s).feeder = s ++ strCodes (r" Total") := rfl

theorem appGrandRow_feeder (rs : List BRec) : (appGrandRow rs).feeder = [] := rfl

theorem cityGrandRow_sku (rs : List BRec) : (cityGrandRow rs).sku = [] := rfl

/-! ## Claim theorems -/

/-- C1: the claim says every row's growth is 0 on a zero baseline.  The
SKU Sales Report's grand total instead divides by 1 when the D-7 revenue
sum is 0: on a working set whose D-7 revenue total is 0 and whose latest
revenue total is 150, the emitted grand-total `Growth %` is 15000, not
0.  (The subtotal rows of the same report and all rows of the citywise
report do apply the zero-guard.) -/
theorem C1_sku_grand_total_growth_zero_baseline :
    (appGrandRow exRecsA).rD7 = 0 ∧ (appGrandRow exRecsA).growth = GCell.num 15000 := by
  have hNT : noTotalName exRecsA := by decide
  have hkeys : appKeys exRecsA = [(strCodes (r"A"), strCodes (r"F"))] := by decide
  have hsrc : appSourceRows exRecsA =
      [appLeafRow exRecsA (strCodes (r"A"), strCodes (r"F"))] := by
    rw [appSourceRows_map_leaf exRecsA hNT, hkeys]
    rfl
  have hfil0 : (filterPeriods exRecsA).filter
      (fun r => r.sku = strCodes (r"A") ∧ r.feeder = strCodes (r"F") ∧
        r.date = d7Date exRecsA) =
      [⟨strCodes (r"A"), strCodes (r"F"), 0, 0, 1⟩] := by decide
  have hfil7 : (filterPeriods exRecsA).filter
      (fun r => r.sku = strCodes (r"A") ∧ r.feeder = strCodes (r"F") ∧
        r.date = latestDate exRecsA) =
      [⟨strCodes (r"A"), strCodes (r"F"), 7, 150, 2⟩] := by decide
  have hprev : ((appSourceRows exRecsA).map (fun row => row.rD7)).sum = 0 := by
    rw [hsrc]
    simp only [List.map_cons, List.map_nil, List.sum_cons, List.sum_nil, add_zero]
    show appRev exRecsA (strCodes (r"A")) (strCodes (r"F")) (d7Date exRecsA) = 0
    unfold appRev
    rw [hfil0]
    simp
  have hcurr : ((appSourceRows exRecsA).map (fun row => row.rCur)).sum = 150 := by
    rw [hsrc]
    simp only [List.map_cons, List.map_nil, List.sum_cons, List.sum_nil, add_zero]
    show appRev exRecsA (strCodes (r"A")) (strCodes (r"F")) (latestDate exRecsA) = 150
    unfold appRev
    rw [hfil7]
    simp
  constructor
  · rw [appGrandRow_rD7, hprev]
  · rw [appGrandRow_growth, hprev, hcurr]
    have h1 : ((150 : ℚ) - 0) / (if (0 : ℚ) ≠ 0 then (0 : ℚ) else 1) * 100 =
        ((15000 : ℤ) : ℚ) := by
      norm_num
    rw [h1, pyRound2_int]
    norm_num

/-- C2 counterexample: a Leaf row whose feeder warehouse label contains
the substring `Total` is misclassified as a subtotal row by the SKU
Sales Report and dropped from its grand total: on a working set whose
only D-7 revenue (10) sits on the leaf (A, Total Hub), the grand-total
D-7 revenue is 0 while the sum over all Leaf rows is 10. -/
theorem C2_counterexample_total_feeder_leaf_excluded :
    (appGrandRow exRecsB).rD7 = 0 ∧
    (((appGroupSkus exRecsB).flatMap (appLeavesOf exRecsB)).map
      (fun row => row.rD7)).sum = 10 := by
  have hsku : appGroupSkus exRecsB = [strCodes (r"A")] := by decide
  have hgk : (appKeys exRecsB).filter (fun k => k.1 = strCodes (r"A")) =
      [(strCodes (r"A"), strCodes (r"Total Hub")),
       (strCodes (r"A"), strCodes (r"X"))] := by decide
  have hleaves : appLeavesOf exRecsB (strCodes (r"A")) =
      [appLeafRow exRecsB (strCodes (r"A"), strCodes (r"Total Hub")),
       appLeafRow exRecsB (strCodes (r"A"), strCodes (r"X"))] := by
    unfold appLeavesOf
    rw [hgk]
    rfl
  have hfinal : appFinalDf exRecsB =
      [appLeafRow exRecsB (strCodes (r"A"), strCodes (r"Total Hub")),
       appLeafRow exRecsB (strCodes (r"A"), strCodes (r"X")),
       appSubtotalRow exRecsB (strCodes (r"A"))] := by
    unfold appFinalDf
    rw [hsku]
    simp [hleaves]
  have hT1 : isTotalFeeder
      (appLeafRow exRecsB (strCodes (r"A"), strCodes (r"Total Hub"))) = true := by decide
  have hT2 : isTotalFeeder
      (appLeafRow exRecsB (strCodes (r"A"), strCodes (r"X"))) = false := by decide
  have hT3 : isTotalFeeder (appSubtotalRow exRecsB (strCodes (r"A"))) = true := by decide
  have hsrc : appSourceRows exRecsB =
      [appLeafRow exRecsB (strCodes (r"A"), strCodes (r"X"))] := by
    unfold appSourceRows
    rw [hfinal]
    simp [List.filter_cons, hT1, hT2, hT3]
  have hfilX : (filterPeriods exRecsB).filter
      (fun r => r.sku = strCodes (r"A") ∧ r.feeder = strCodes (r"X") ∧
        r.date = d7Date exRecsB) = [] := by decide
  have hprev : ((appSourceRows exRecsB).map (fun row => row.rD7)).sum = 0 := by
    rw [hsrc]
    simp only [List.map_cons, List.map_nil, List.sum_cons, List.sum_nil, add_zero]
    show appRev exRecsB (strCodes (r"A")) (strCodes (r"X")) (d7Date exRecsB) = 0
    unfold appRev
    rw [hfilX]
    simp
  constructor
  · rw [appGrandRow_rD7, hprev]
  · rw [hsku]
    simp only [List.flatMap_cons, List.flatMap_nil, List.append_nil]
    rw [hleaves]
    simp only [List.map_cons, List.map_nil, List.sum_cons, List.sum_nil, add_zero]
    have e1 : (appLeafRow exRecsB (strCodes (r"A"), strCodes (r"Total Hub"))).rD7 = 10 := by
      show appRev exRecsB (strCodes (r"A")) (strCodes (r"Total Hub")) (d7Date exRecsB) = 10
      unfold appRev
      rw [(by decide : (filterPeriods exRecsB).filter
        (fun r => r.sku = strCodes (r"A") ∧ r.feeder = strCodes (r"Total Hub") ∧
          r.date = d7Date exRecsB) =
        [⟨strCodes (r"A"), strCodes (r"Total Hub"), 0, 10, 1⟩])]
      simp
    have e2 : (appLeafRow exRecsB (strCodes (r"A"), strCodes (r"X"))).rD7 = 0 := by
      show appRev exRecsB (strCodes (r"A")) (strCodes (r"X")) (d7Date exRecsB) = 0
      unfold appRev
      rw [hfilX]
      simp
    rw [e1, e2]
    norm_num

/-- C2 (amended): in the citywise report, for every kept date column the
grand-total cell is the sum of that column over all Leaf pivot rows, and
each feeder subtotal cell the sum over the group's Leaf rows, both equal
to the direct sums over the underlying filtered records (never derived
from other subtotal rows); in the SKU Sales Report, provided no record's
dimension label contains the substring `Total` (the report classifies
subtotal rows by that substring in `feeder_wh`), the grand-total row
equals the per-column sum over all Leaf rows, and each SKU subtotal row
equals the per-column record-level sum of its own group. -/
theorem C2_totals_from_leaves_only (rs : List BRec) :
    (∀ d ∈ cityCols rs,
      (lookupCell (cityGrandRow rs) d = some (cityGrandQty rs d, cityGrandRev rs d) ∧
       cityGrandQty rs d = ((cityKeys rs).map (fun k => cityQty rs k.1 k.2 d)).sum ∧
       cityGrandQty rs d =
         (((filterPeriods rs).filter (fun r => r.date = d)).map (fun r => r.quantity)).sum ∧
       cityGrandRev rs d =
         (((filterPeriods rs).filter (fun r => r.date = d)).map (fun r => r.net_revenue)).sum) ∧
      (∀ f ∈ cityFeeders rs,
        lookupCell (citySubtotalRow rs f) d = some (citySubQty rs f d, citySubRev rs f d) ∧
        citySubQty rs f d = ((cityGroupKeys rs f).map (fun k => cityQty rs f k.2 d)).sum ∧
        citySubQty rs f d =
          (((filterPeriods rs).filter (fun r => r.feeder = f ∧ r.date = d)).map
            (fun r => r.quantity)).sum ∧
        citySubRev rs f d =
          (((filterPeriods rs).filter (fun r => r.feeder = f ∧ r.date = d)).map
            (fun r => r.net_revenue)).sum)) ∧
    (noTotalName rs →
      ((appGrandRow rs).qD7 =
          (((appGroupSkus rs).flatMap (appLeavesOf rs)).map (fun row => row.qD7)).sum ∧
       (appGrandRow rs).qD1 =
          (((appGroupSkus rs).flatMap (appLeavesOf rs)).map (fun row => row.qD1)).sum ∧
       (appGrandRow rs).qCur =
          (((appGroupSkus rs).flatMap (appLeavesOf rs)).map (fun row => row.qCur)).sum ∧
       (appGrandRow rs).rD7 =
          (((appGroupSkus rs).flatMap (appLeavesOf rs)).map (fun row => row.rD7)).sum ∧
       (appGrandRow rs).rD1 =
          (((appGroupSkus rs).flatMap (appLeavesOf rs)).map (fun row => row.rD1)).sum ∧
       (appGrandRow rs).rCur =
          (((appGroupSkus rs).flatMap (appLeavesOf rs)).map (fun row => row.rCur)).sum) ∧
      ((appGrandRow rs).qD7 =
          (((filterPeriods rs).filter (fun r => r.date = d7Date rs)).map
            (fun r => r.quantity)).sum ∧
       (appGrandRow rs).qD1 =
          (((filterPeriods rs).filter (fun r => r.date = d1Date rs)).map
            (fun r => r.quantity)).sum ∧
       (appGrandRow rs).qCur =
          (((filterPeriods rs).filter (fun r => r.date = latestDate rs)).map
            (fun r => r.quantity)).sum ∧
       (appGrandRow rs).rD7 =
          (((filterPeriods rs).filter (fun r => r.date = d7Date rs)).map
            (fun r => r.net_revenue)).sum ∧
       (appGrandRow rs).rD1 =
          (((filterPeriods rs).filter (fun r => r.date = d1Date rs)).map
            (fun r => r.net_revenue)).sum ∧
       (appGrandRow rs).rCur =
          (((filterPeriods rs).filter (fun r => r.date = latestDate rs)).map
            (fun r => r.net_revenue)).sum) ∧
      (∀ s ∈ appGroupSkus rs,
        (appSubtotalRow rs s).qD7 =
          (((filterPeriods rs).filter (fun r => r.sku = s ∧ r.date = d7Date rs)).map
            (fun r => r.quantity)).sum ∧
        (appSubtotalRow rs s).qD1 =
          (((filterPeriods rs).filter (fun r => r.sku = s ∧ r.date = d1Date rs)).map
            (fun r => r.quantity)).sum ∧
        (appSubtotalRow rs s).qCur =
          (((filterPeriods rs).filter (fun r => r.sku = s ∧ r.date = latestDate rs)).map
            (fun r => r.quantity)).sum ∧
        (appSubtotalRow rs s).rD7 =
          (((filterPeriods rs).filter (fun r => r.sku = s ∧ r.date = d7Date rs)).map
            (fun r => r.net_revenue)).sum ∧
        (appSubtotalRow rs s).rD1 =
          (((filterPeriods rs).filter (fun r => r.sku = s ∧ r.date = d1Date rs)).map
            (fun r => r.net_revenue)).sum ∧
        (appSubtotalRow rs s).rCur =
          (((filterPeriods rs).filter (fun r => r.sku = s ∧ r.date = latestDate rs)).map
            (fun r => r.net_revenue)).sum)) := by
  constructor
  · intro d hd
    refine ⟨⟨lookupCell_cityGrandRow rs d hd, rfl, cityGrandQty_recordSum rs d,
      cityGrandRev_recordSum rs d⟩, ?_⟩
    intro f hf
    exact ⟨lookupCell_citySubtotalRow rs f d hd, rfl, citySubQty_recordSum rs f d,
      citySubRev_recordSum rs f d⟩
  · intro hNT
    refine ⟨⟨?_, ?_, ?_, ?_, ?_, ?_⟩, ⟨?_, ?_, ?_, ?_, ?_, ?_⟩, ?_⟩
    · rw [← appSourceRows_eq rs hNT]; rfl
    · rw [← appSourceRows_eq rs hNT]; rfl
    · rw [← appSourceRows_eq rs hNT]; rfl
    · rw [← appSourceRows_eq rs hNT]; rfl
    · rw [← appSourceRows_eq rs hNT]; rfl
    · rw [← appSourceRows_eq rs hNT]; rfl
    · calc (appGrandRow rs).qD7
          = (((appGroupSkus rs).flatMap (appLeavesOf rs)).map (fun row => row.qD7)).sum := by
            rw [← appSourceRows_eq rs hNT]; rfl
        _ = ((appKeys rs).map (fun k => appQty rs k.1 k.2 (d7Date rs))).sum :=
            app_leafSum_keys rs hNT _ _ (fun k => rfl)
        _ = _ := appLeafSumQty_recordSum rs (d7Date rs)
    · calc (appGrandRow rs).qD1
          = (((appGroupSkus rs).flatMap (appLeavesOf rs)).map (fun row => row.qD1)).sum := by
            rw [← appSourceRows_eq rs hNT]; rfl
        _ = ((appKeys rs).map (fun k => appQty rs k.1 k.2 (d1Date rs))).sum :=
            app_leafSum_keys rs hNT _ _ (fun k => rfl)
        _ = _ := appLeafSumQty_recordSum rs (d1Date rs)
    · calc (appGrandRow rs).qCur
          = (((appGroupSkus rs).flatMap (appLeavesOf rs)).map (fun row => row.qCur)).sum := by
            rw [← appSourceRows_eq rs hNT]; rfl
        _ = ((appKeys rs).map (fun k => appQty rs k.1 k.2 (latestDate rs))).sum :=
            app_leafSum_keys rs hNT _ _ (fun k => rfl)
        _ = _ := appLeafSumQty_recordSum rs (latestDate rs)
    · calc (appGrandRow rs).rD7
          = (((appGroupSkus rs).flatMap (appLeavesOf rs)).map (fun row => row.rD7)).sum := by
            rw [← appSourceRows_eq rs hNT]; rfl
        _ = ((appKeys rs).map (fun k => appRev rs k.1 k.2 (d7Date rs))).sum :=
            app_leafSum_keys rs hNT _ _ (fun k => rfl)
        _ = _ := appLeafSumRev_recordSum rs (d7Date rs)
    · calc (appGrandRow rs).rD1
          = (((appGroupSkus rs).flatMap (appLeavesOf rs)).map (fun row => row.rD1)).sum := by
            rw [← appSourceRows_eq rs hNT]; rfl
        _ = ((appKeys rs).map (fun k => appRev rs k.1 k.2 (d1Date rs))).sum :=
            app_leafSum_keys rs hNT _ _ (fun k => rfl)
        _ = _ := appLeafSumRev_recordSum rs (d1Date rs)
    · calc (appGrandRow rs).rCur
          = (((appGroupSkus rs).flatMap (appLeavesOf rs)).map (fun row => row.rCur)).sum := by
            rw [← appSourceRows_eq rs hNT]; rfl
        _ = ((appKeys rs).map (fun k => appRev rs k.1 k.2 (latestDate rs))).sum :=
            app_leafSum_keys rs hNT _ _ (fun k => rfl)
        _ = _ := appLeafSumRev_recordSum rs (latestDate rs)
    · intro s _
      refine ⟨?_, ?_, ?_, ?_, ?_, ?_⟩
      · calc (appSubtotalRow rs s).qD7
            = (((appKeys rs).filter (fun k => k.1 = s)).map
                (fun k => appQty rs k.1 k.2 (d7Date rs))).sum :=
              app_groupSum_keys rs s _ _ (fun k => rfl)
          _ = _ := appGroupSumQty_recordSum rs s (d7Date rs)
      · calc (appSubtotalRow rs s).qD1
            = (((appKeys rs).filter (fun k => k.1 = s)).map
                (fun k => appQty rs k.1 k.2 (d1Date rs))).sum :=
              app_groupSum_keys rs s _ _ (fun k => rfl)
          _ = _ := appGroupSumQty_recordSum rs s (d1Date rs)
      · calc (appSubtotalRow rs s).qCur
            = (((appKeys rs).filter (fun k => k.1 = s)).map
                (fun k => appQty rs k.1 k.2 (latestDate rs))).sum :=
              app_groupSum_keys rs s _ _ (fun k => rfl)
          _ = _ := appGroupSumQty_recordSum rs s (latestDate rs)
      · calc (appSubtotalRow rs s).rD7
            = (((appKeys rs).filter (fun k => k.1 = s)).map
                (fun k => appRev rs k.1 k.2 (d7Date rs))).sum :=
              app_groupSum_keys rs s _ _ (fun k => rfl)
          _ = _ := appGroupSumRev_recordSum rs s (d7Date rs)
      · calc (appSubtotalRow rs s).rD1
            = (((appKeys rs).filter (fun k => k.1 = s)).map
                (fun k => appRev rs k.1 k.2 (d1Date rs))).sum :=
              app_groupSum_keys rs s _ _ (fun k => rfl)
          _ = _ := appGroupSumRev_recordSum rs s (d1Date rs)
      · calc (appSubtotalRow rs s).rCur
            = (((appKeys rs).filter (fun k => k.1 = s)).map
                (fun k => appRev rs k.1 k.2 (latestDate rs))).sum :=
              app_groupSum_keys rs s _ _ (fun k => rfl)
          _ = _ := appGroupSumRev_recordSum rs s (latestDate rs)

/-- C2 witness: the amended no-double-counting theorem applied to a
concrete working set, with the no-`Total`-label hypothesis discharged by
evaluation. -/
theorem C2_totals_from_leaves_only_witness :
    (appGrandRow exRecsA).qD7 =
      (((appGroupSkus exRecsA).flatMap (appLeavesOf exRecsA)).map
        (fun row => row.qD7)).sum :=
  ((C2_totals_from_leaves_only exRecsA).2 (by decide)).1.1

/-- C3 counterexample: on a working set whose D-1 day (day 6) has no
data for any key while the key (A, S) has data on D-7 and the latest
day, the resulting comparison row has no metric entry at all for the
configured D-1 period — `pivot_table` creates no column for a date
absent from the data, and `cols_to_keep` silently omits it. -/
theorem C3_counterexample_missing_period_column :
    d1Date exRecsC = 6 ∧
    (strCodes (r"A"), strCodes (r"S")) ∈ cityKeys exRecsC ∧
    lookupCell (cityLeafRow exRecsC (strCodes (r"A"), strCodes (r"S")))
      (d1Date exRecsC) = none := by
  refine ⟨by decide, by decide, by decide⟩

/-- C3 (amended): for every aggregation key of the citywise pivot and
every configured period that has data for at least one key (i.e. every
kept column), the comparison row carries a metric entry for that period,
and a (key, period) combination with no underlying records defaults to
the zero metrics that `fill_value=0` provides. -/
theorem C3_entries_for_present_periods (rs : List BRec) :
    ∀ k ∈ cityKeys rs, ∀ d ∈ cityCols rs,
      lookupCell (cityLeafRow rs k) d =
        some (cityQty rs k.1 k.2 d, cityRev rs k.1 k.2 d) ∧
      ((filterPeriods rs).filter
          (fun r => r.feeder = k.1 ∧ r.sku = k.2 ∧ r.date = d) = [] →
        cityQty rs k.1 k.2 d = 0 ∧ cityRev rs k.1 k.2 d = 0) := by
  intro k _ d hd
  refine ⟨lookupCell_cityLeafRow rs k d hd, ?_⟩
  intro hnil
  unfold cityQty cityRev
  rw [hnil]
  simp

/-- C3 witness: the amended reindexing theorem applied to a concrete
working set, key and kept column. -/
theorem C3_entries_for_present_periods_witness :
    lookupCell (cityLeafRow exRecsA (strCodes (r"F"), strCodes (r"A"))) 0 =
      some (cityQty exRecsA (strCodes (r"F")) (strCodes (r"A")) 0,
        cityRev exRecsA (strCodes (r"F")) (strCodes (r"A")) 0) :=
  (C3_entries_for_present_periods exRecsA (strCodes (r"F"), strCodes (r"A"))
    (by decide) 0 (by decide)).1

/-- C4 counterexample: the claimed lexical tie-break is not guaranteed
by the program.  `sort_values` with the default `kind='quicksort'`
promises only a weakly descending arrangement (numpy documents the
default sort as not stable), so on a working set whose two SKU groups
tie on the ranking metric, the arrangement that places `B` before `A`
is a valid output of the documented contract even though `A` precedes
`B` lexically. -/
theorem C4_counterexample_tie_order_not_forced :
    sortValuesOutput (fun s => (appSubtotalRow exRecsD s).qCur)
      (appGroupSkus exRecsD) [strCodes (r"B"), strCodes (r"A")] = true ∧
    (appSubtotalRow exRecsD (strCodes (r"A"))).qCur =
      (appSubtotalRow exRecsD (strCodes (r"B"))).qCur ∧
    codesLtB (strCodes (r"A")) (strCodes (r"B")) = true := by
  refine ⟨by decide, by decide, by decide⟩

/-- C4 (amended): under the conditions in which the SKU Sales Report
renders (all three date columns exist, and no dimension label contains
`Total`, so the subtotal classifier cannot misfire), the emitted table
is exactly: for each SKU group in order, its leaf rows then its
subtotal, with the single grand total last; the group order is a
permutation of the groups weakly sorted by the subtotal's latest-day
units descending, and within each group the leaf rows are a permutation
of the group's leaves weakly sorted by their own latest-day units
descending.  The arrangement of groups (or leaves) whose ranking metric
ties is deterministic for a given frame but not otherwise specified:
the default sort of `sort_values` is documented as not stable, so no
lexical tie-break is guaranteed. -/
theorem C4_ranked_table_blocks_weak_ties (rs : List BRec) (hNT : noTotalName rs)
    (_hDP : appDatesPresent rs) :
    appTable rs =
      ((appSkuOrder rs).flatMap (fun s => appSkuRowsSorted rs s ++ [appSubtotalRow rs s])) ++
        [appGrandRow rs] ∧
    (appSkuOrder rs).Perm (appGroupSkus rs) ∧
    (appSkuOrder rs).Pairwise (fun a b =>
      (appSubtotalRow rs b).qCur ≤ (appSubtotalRow rs a).qCur) ∧
    (∀ s ∈ appSkuOrder rs,
      (appSkuRowsSorted rs s).Perm (appLeavesOf rs s) ∧
      (appSkuRowsSorted rs s).Pairwise (fun a b => b.qCur ≤ a.qCur)) := by
  refine ⟨?_, perm_appSkuOrder rs hNT, ?_, ?_⟩
  · unfold appTable
    rw [appOrderedRows_blocks rs hNT]
  · exact (pairwise_appSkuOrder rs hNT).imp
      (fun h => h.elim le_of_lt (fun h2 => le_of_eq h2.1.symm))
  · intro s _
    exact ⟨perm_appSkuRowsSorted rs hNT s,
      (pairwise_appSkuRowsSorted rs hNT s).imp
        (fun h => h.elim le_of_lt (fun h2 => le_of_eq h2.1.symm))⟩

/-- C4 witness: the amended ranked-order theorem applied to a concrete
working set, both hypotheses discharged by evaluation. -/
theorem C4_ranked_table_blocks_weak_ties_witness :
    (appSkuOrder exRecsA).Perm (appGroupSkus exRecsA) :=
  (C4_ranked_table_blocks_weak_ties exRecsA (by decide) (by decide)).2.1

/-- C5 counterexample: a Leaf row of the emitted citywise table carries
a blank (non-numeric) `Growth %` cell, refuting the claim that every
emitted row carries a numeric growth value on the headline metric. -/
theorem C5_counterexample_leaf_growth_blank :
    carriesNum (cityLeafRow exRecsA (strCodes (r"F"), strCodes (r"A"))).growth = false ∧
    cityLeafRow exRecsA (strCodes (r"F"), strCodes (r"A")) ∈ cityTable exRecsA := by
  constructor
  · decide
  · have hf : strCodes (r"F") ∈ cityFeeders exRecsA := by decide
    have hk : (strCodes (r"F"), strCodes (r"A")) ∈
        cityGroupKeys exRecsA (strCodes (r"F")) := by decide
    unfold cityTable
    apply List.mem_append_left
    apply List.mem_flatMap.mpr
    exact ⟨strCodes (r"F"), hf, List.mem_append_left _ (List.mem_map.mpr ⟨_, hk, rfl⟩)⟩

/-- C5 (amended): provided no dimension label contains `Total`, a row of
either emitted table carries a numeric growth value exactly when it is a
total row (a subtotal, recognized by `Total` in its label column, or the
grand total); every Leaf row's growth cell is blank. -/
theorem C5_growth_on_total_rows_only (rs : List BRec) (hNT : noTotalName rs) :
    (∀ row ∈ cityTable rs,
      carriesNum row.growth =
        (containsSub (strCodes (r"Total")) row.sku ||
          decide (row.feeder = strCodes (r"Grand Total")))) ∧
    (∀ row ∈ appTable rs,
      carriesNum row.growth =
        (containsSub (strCodes (r"Total")) row.feeder ||
          decide (row.sku = strCodes (r"Grand Total")))) := by
  have hemptyfalse : containsSub (strCodes (r"Total")) ([] : List Nat) = false := by decide
  constructor
  · intro row hrow
    unfold cityTable at hrow
    rcases List.mem_append.mp hrow with h | h
    · rcases List.mem_flatMap.mp h with ⟨f, hf, hrow2⟩
      rcases List.mem_append.mp hrow2 with h2 | h2
      · rcases List.mem_map.mp h2 with ⟨k, hk, hrk⟩
        rw [← hrk]
        have hkc : k ∈ cityKeys rs := (List.mem_filter.mp hk).1
        have hnt := cityKeys_no_total rs hNT k hkc
        rw [carriesNum_cityLeafRow]
        have hsku : (cityLeafRow rs k).sku = k.2 := rfl
        have hfd : (cityLeafRow rs k).feeder = k.1 := rfl
        rw [hsku, hfd, hnt.2, no_total_ne_grand k.1 hnt.1]
        rfl
      · rw [List.mem_singleton] at h2
        rw [h2]
        rw [carriesNum_citySubtotalRow, citySubtotalRow_sku, containsSub_total_append f]
        rfl
    · rw [List.mem_singleton] at h
      rw [h]
      rw [carriesNum_cityGrandRow, cityGrandRow_feeder, cityGrandRow_sku, hemptyfalse]
      simp
  · intro row hrow
    unfold appTable at hrow
    rcases List.mem_append.mp hrow with h | h
    · unfold appOrderedRows at h
      rcases List.mem_flatMap.mp h with ⟨s, hs, hrow2⟩
      rcases List.mem_append.mp hrow2 with h2 | h2
      · have hmem : row ∈ appLeavesOf rs s := by
          have hm := (mem_sortByLt _ _ row).mp h2
          rw [appSourceRows_filter_sku rs hNT s] at hm
          exact hm
        rcases mem_appLeavesOf_mem_keys rs s row hmem with ⟨k, hk, hrk⟩
        rw [hrk]
        have hnt := appKeys_no_total rs hNT k hk
        rw [carriesNum_appLeafRow]
        have hfd : (appLeafRow rs k).feeder = k.2 := rfl
        have hsku : (appLeafRow rs k).sku = k.1 := rfl
        rw [hfd, hsku, hnt.2, no_total_ne_grand k.1 hnt.1]
        rfl
      · have hT : isTotalFeeder row = true := by
          have hcond := (List.mem_filter.mp h2).2
          simp only [Bool.and_eq_true] at hcond
          exact hcond.2
        have hmemdf : row ∈ appFinalDf rs := (List.mem_filter.mp h2).1
        rcases mem_appFinalDf_cases rs row hmemdf with ⟨k, hk, hrk⟩ | ⟨s', _, hrk⟩
        · rw [hrk, isTotalFeeder_appLeafRow rs hNT k hk] at hT
          exact absurd hT Bool.false_ne_true
        · rw [hrk]
          rw [carriesNum_appSubtotalRow, appSubtotalRow_feeder, containsSub_total_append s']
          rfl
    · rw [List.mem_singleton] at h
      rw [h]
      rw [carriesNum_appGrandRow, appGrandRow_sku, appGrandRow_feeder, hemptyfalse]
      simp

/-- C5 witness: the amended growth-placement theorem applied to the
grand-total row of a concrete citywise table. -/
theorem C5_growth_on_total_rows_only_witness :
    carriesNum (cityGrandRow exRecsA).growth =
      (containsSub (strCodes (r"Total")) (cityGrandRow exRecsA).sku ||
        decide ((cityGrandRow exRecsA).feeder = strCodes (r"Grand Total"))) :=
  (C5_growth_on_total_rows_only exRecsA (by decide)).1 (cityGrandRow exRecsA)
    (List.mem_append_right _ (List.mem_singleton.mpr rfl))

/-- C6 counterexample: the cleaning regex `[₹,]` does not strip percent
signs, so a metric written as `50%` fails numeric coercion and is
flattened to 0 by `fillna(0)` rather than read as 50. -/
theorem C6_counterexample_percent_not_stripped :
    replaceRupeeComma (strCodes (r"50%")) = strCodes (r"50%") ∧
    toNumericCoerceFill (strCodes (r"50%")) = 0 := by
  refine ⟨by decide, by decide⟩

/-- C6 (amended): the loaders' metric cleaning strips rupee signs and
commas (only), coerces the remainder as a decimal number, and replaces
anything unparsable — including percent-suffixed values — with 0:
`₹1,234.50` becomes 1234.5, `N/A` and `50%` become 0, and in general an
unparsable cleaned string yields 0 while a parsable one yields its
decimal value. -/
theorem C6_metric_cleaning_strips_rupee_comma :
    toNumericCoerceFill (strCodes (r"₹1,234.50")) = 1234.5 ∧
    toNumericCoerceFill (strCodes (r"N/A")) = 0 ∧
    toNumericCoerceFill (strCodes (r"50%")) = 0 ∧
    (∀ s, parseDecCodes (replaceRupeeComma s) = none → toNumericCoerceFill s = 0) ∧
    (∀ s q, parseDecCodes (replaceRupeeComma s) = some q → toNumericCoerceFill s = q) := by
  refine ⟨?_, by decide, by decide, ?_, ?_⟩
  · have h : toNumericCoerceFill (strCodes (r"₹1,234.50")) =
        (digitsVal (strCodes (r"1234")) : ℚ) +
          (digitsVal (strCodes (r"50")) : ℚ) / (10 : ℚ) ^ (strCodes (r"50")).length := rfl
    rw [h, (by decide : digitsVal (strCodes (r"1234")) = 1234),
      (by decide : digitsVal (strCodes (r"50")) = 50),
      (by decide : (strCodes (r"50")).length = 2)]
    norm_num
  · intro s h
    unfold toNumericCoerceFill
    rw [h]
    rfl
  · intro s q h
    unfold toNumericCoerceFill
    rw [h]
    rfl

/-- C6 witness: the unparsable-to-zero clause applied to a concrete
string. -/
theorem C6_metric_cleaning_strips_rupee_comma_witness :
    toNumericCoerceFill (strCodes (r"abc")) = 0 :=
  C6_metric_cleaning_strips_rupee_comma.2.2.2.1 (strCodes (r"abc")) (by decide)

/-- C7: order dates are parsed day-first (`02/03/2024` is 2 March 2024,
not 3 February) and rows whose date fails to parse are dropped: an
unparsable-date row never appears in the retained rows, and a (row,
date) pair is retained exactly when the row is present and its date
string parses day-first to that date. -/
theorem C7_dayfirst_parse_and_drop :
    (∀ rows : List RawBRec, ∀ r ∈ rows, parseDateDayfirst r.dateStr = none →
      ∀ d, (r, d) ∉ blinkitDates rows) ∧
    (∀ (rows : List RawBRec) (r : RawBRec) (d : PDate),
      (r, d) ∈ blinkitDates rows ↔ r ∈ rows ∧ parseDateDayfirst r.dateStr = some d) ∧
    parseDateDayfirst (strCodes (r"02/03/2024")) = some ⟨2, 3, 2024⟩ ∧
    parseDateDayfirst (strCodes (r"N/A")) = none := by
  have hbl : ∀ rows : List RawBRec, blinkitDates rows =
      rows.filterMap (fun r => (parseDateDayfirst r.dateStr).map (fun d => (r, d))) := by
    intro rows
    unfold blinkitDates dropnaOrderDate toDatetimeDayfirst
    rw [List.filterMap_map]
    rfl
  have hiff : ∀ (rows : List RawBRec) (r : RawBRec) (d : PDate),
      (r, d) ∈ blinkitDates rows ↔ r ∈ rows ∧ parseDateDayfirst r.dateStr = some d := by
    intro rows r d
    rw [hbl rows, List.mem_filterMap]
    constructor
    · rintro ⟨a, ha, hmap⟩
      rcases Option.map_eq_some'.mp hmap with ⟨d', hd', heq⟩
      rw [Prod.mk.injEq] at heq
      rw [← heq.1, ← heq.2]
      exact ⟨ha, hd'⟩
    · rintro ⟨hr, hp⟩
      exact ⟨r, hr, by rw [hp]; rfl⟩
  refine ⟨?_, hiff, by decide, by decide⟩
  intro rows r _ hnone d hmem
  have hh := (hiff rows r d).mp hmem
  rw [hnone] at hh
  exact Option.noConfusion hh.2

/-- C7 witness: the retention characterization applied to a one-row
working set with a parsable day-first date. -/
theorem C7_dayfirst_parse_and_drop_witness :
    ((⟨strCodes (r"S1"), strCodes (r"W1"), strCodes (r"02/03/2024"), 5, 1⟩ : RawBRec),
      (⟨2, 3, 2024⟩ : PDate)) ∈
      blinkitDates [⟨strCodes (r"S1"), strCodes (r"W1"), strCodes (r"02/03/2024"), 5, 1⟩] :=
  (C7_dayfirst_parse_and_drop.2.1
      [⟨strCodes (r"S1"), strCodes (r"W1"), strCodes (r"02/03/2024"), 5, 1⟩]
      ⟨strCodes (r"S1"), strCodes (r"W1"), strCodes (r"02/03/2024"), 5, 1⟩
      ⟨2, 3, 2024⟩).mpr
    ⟨List.mem_singleton.mpr rfl, by decide⟩

/-- C8 counterexample: the coalesce `np.where(product_display_x != 0, x,
y)` prefers the ad-side label even when it is the empty string: with an
ad row whose label is empty matched to a sales row labelled `Pad`, the
merged display name is the empty string, not `Pad`. -/
theorem C8_counterexample_empty_display_wins :
    (mergeOuter exAds exSales).map (fun m => m.display_name) =
      [PCell.str []] := by decide

/-- C8 (amended): the outer merge keeps every ad-side row and every
unmatched sales-side row; an ad-side row's display name is always its
own label (the fill value 0 from the merge never survives on the x side,
but an empty ad-side string also wins over the sales label), and an
unmatched sales-side row falls back to the sales label. -/
theorem C8_display_name_coalesce (ads : List AdGrpRow) (sales : List SalesGrpRow) :
    (∀ a ∈ ads, ∃ m ∈ mergeOuter ads sales,
      m.joinKey = a.joinKey ∧ m.dateStr = a.dateStr ∧
      m.display_name = PCell.str a.product_display) ∧
    (∀ s ∈ sales, (∀ a ∈ ads, ¬(a.joinKey = s.joinKey ∧ a.dateStr = s.dateStr)) →
      ∃ m ∈ mergeOuter ads sales,
        m.joinKey = s.joinKey ∧ m.dateStr = s.dateStr ∧
        m.display_name = PCell.str s.product_display) := by
  constructor
  · intro a ha
    refine ⟨mergeAdRow sales a,
      List.mem_append_left _ (List.mem_map.mpr ⟨a, ha, rfl⟩), ?_⟩
    unfold mergeAdRow
    split <;> exact ⟨rfl, rfl, rfl⟩
  · intro s hs hno
    have hfilter : s ∈ sales.filter (fun s' =>
        !(ads.any (fun a => decide (a.joinKey = s'.joinKey) &&
          decide (a.dateStr = s'.dateStr)))) := by
      apply List.mem_filter.mpr
      refine ⟨hs, ?_⟩
      simp only [Bool.not_eq_true', List.any_eq_false, Bool.and_eq_true, decide_eq_true_eq,
        not_and]
      intro a ha hj hd
      exact hno a ha ⟨hj, hd⟩
    refine ⟨mergeSalesRow s,
      List.mem_append_right _ (List.mem_map.mpr ⟨s, hfilter, rfl⟩), rfl, rfl, ?_⟩
    simp [mergeSalesRow, coalesceDisplay]

/-- C8 witness: the ad-side clause applied to the concrete merged
example. -/
theorem C8_display_name_coalesce_witness :
    ∃ m ∈ mergeOuter exAds exSales,
      m.joinKey = strCodes (r"x") ∧ m.dateStr = strCodes (r"2024-01-01") ∧
      m.display_name = PCell.str [] :=
  (C8_display_name_coalesce exAds exSales).1
    ⟨strCodes (r"x"), strCodes (r"2024-01-01"), 10, 5, []⟩ (by decide)

/-- C9: the DRR growth computation `np.where(prev > 0, ((curr - prev) /
prev) * 100, 0)` yields 0 whenever the baseline is not strictly positive
and the relative-change formula whenever it is. -/
theorem C9_growth_zero_guard (curr prev : ℚ) :
    (prev ≤ 0 → calc_growth curr prev = 0) ∧
    (0 < prev → calc_growth curr prev = ((curr - prev) / prev) * 100) := by
  unfold calc_growth
  constructor
  · intro h
    rw [if_neg (not_lt.mpr h)]
  · intro h
    rw [if_pos h]

/-- C9 witness: the guard theorem applied at a non-positive and a
positive baseline. -/
theorem C9_growth_zero_guard_witness :
    calc_growth 100 (-5) = 0 ∧ calc_growth 150 100 = 50 := by
  constructor
  · exact (C9_growth_zero_guard 100 (-5)).1 (by norm_num)
  · rw [(C9_growth_zero_guard 150 100).2 (by norm_num)]
    norm_num

/-- No input can normalize to `Cup Wash`: the generic `wash` branch
precedes the `cup wash` branch in the source, every earlier branch
returns a different constant, and the title-case fallback would have to
title-case to `Cup Wash` while still lower-casing to a string containing
`wash`, which the `wash` branch already intercepted. -/
theorem normalize_product_never_cup_wash (s : List Nat) :
    normalize_product s ≠ strCodes (r"Cup Wash") := by
  intro hcontra
  unfold normalize_product normalizeLowered at hcontra
  by_cases h1 : containsSub (strCodes (r"razor")) (s.map lowerCode) = true
  · rw [if_pos h1] at hcontra
    exact absurd hcontra (by decide)
  rw [if_neg h1] at hcontra
  by_cases h2 : (containsSub (strCodes (r"nipple")) (s.map lowerCode) ||
      containsSub (strCodes (r"pasties")) (s.map lowerCode)) = true
  · rw [if_pos h2] at hcontra
    exact absurd hcontra (by decide)
  rw [if_neg h2] at hcontra
  by_cases h3 : (containsSub (strCodes (r"pimple")) (s.map lowerCode) ||
      containsSub (strCodes (r"patch")) (s.map lowerCode)) = true
  · rw [if_pos h3] at hcontra
    exact absurd hcontra (by decide)
  rw [if_neg h3] at hcontra
  by_cases h4 : containsSub (strCodes (r"liner")) (s.map lowerCode) = true
  · rw [if_pos h4] at hcontra
    exact absurd hcontra (by decide)
  rw [if_neg h4] at hcontra
  by_cases h5 : (containsSub (strCodes (r"sweat")) (s.map lowerCode) ||
      containsSub (strCodes (r"pad")) (s.map lowerCode)) = true
  · rw [if_pos h5] at hcontra
    exact absurd hcontra (by decide)
  rw [if_neg h5] at hcontra
  by_cases h6 : containsSub (strCodes (r"lotion")) (s.map lowerCode) = true
  · rw [if_pos h6] at hcontra
    exact absurd hcontra (by decide)
  rw [if_neg h6] at hcontra
  by_cases h7 : containsSub (strCodes (r"wash")) (s.map lowerCode) = true
  · rw [if_pos h7] at hcontra
    exact absurd hcontra (by decide)
  rw [if_neg h7] at hcontra
  by_cases h8 : (containsSub (strCodes (r"rollon")) (s.map lowerCode) ||
      containsSub (strCodes (r"roll-on")) (s.map lowerCode)) = true
  · rw [if_pos h8] at hcontra
    exact absurd hcontra (by decide)
  rw [if_neg h8] at hcontra
  by_cases h9 : (containsSub (strCodes (r"cup")) (s.map lowerCode) &&
      !containsSub (strCodes (r"wash")) (s.map lowerCode)) = true
  · rw [if_pos h9] at hcontra
    exact absurd hcontra (by decide)
  rw [if_neg h9] at hcontra
  by_cases h10 : containsSub (strCodes (r"cramp")) (s.map lowerCode) = true
  · rw [if_pos h10] at hcontra
    exact absurd hcontra (by decide)
  rw [if_neg h10] at hcontra
  by_cases h11 : containsSub (strCodes (r"lubricant")) (s.map lowerCode) = true
  · rw [if_pos h11] at hcontra
    exact absurd hcontra (by decide)
  rw [if_neg h11] at hcontra
  by_cases h12 : containsSub (strCodes (r"cup wash")) (s.map lowerCode) = true
  · exact absurd (containsSub_trans _ _ _ (by decide) h12) h7
  rw [if_neg h12] at hcontra
  by_cases h13 : (containsSub (strCodes (r"period panties")) (s.map lowerCode) ||
      containsSub (strCodes (r"panty")) (s.map lowerCode)) = true
  · rw [if_pos h13] at hcontra
    exact absurd hcontra (by decide)
  rw [if_neg h13] at hcontra
  by_cases h14 : containsSub (strCodes (r"sterilizer")) (s.map lowerCode) = true
  · rw [if_pos h14] at hcontra
    exact absurd hcontra (by decide)
  rw [if_neg h14] at hcontra
  by_cases h15 : containsSub (strCodes (r"energizer")) (s.map lowerCode) = true
  · rw [if_pos h15] at hcontra
    exact absurd hcontra (by decide)
  rw [if_neg h15] at hcontra
  by_cases h16 : (containsSub (strCodes (r"aloe")) (s.map lowerCode) ||
      containsSub (strCodes (r"gel")) (s.map lowerCode)) = true
  · rw [if_pos h16] at hcontra
    exact absurd hcontra (by decide)
  rw [if_neg h16] at hcontra
  have hlow : (s.map lowerCode).map lowerCode = s.map lowerCode := map_lowerCode_idem s
  have h2' : (s.map lowerCode).map lowerCode =
      (strCodes (r"Cup Wash")).map lowerCode := by
    rw [← map_lowerCode_pyTitle false (s.map lowerCode), hcontra]
  rw [hlow] at h2'
  have h3' : (strCodes (r"Cup Wash")).map lowerCode = strCodes (r"cup wash") := by decide
  rw [h3'] at h2'
  have h4' : containsSub (strCodes (r"wash")) (s.map lowerCode) = true := by
    rw [h2']
    decide
  exact h7 h4'

/-- C10: the `Cup Wash` branch of `normalize_product` is dead code — for
every input name the comparison of the normalized name against
`Cup Wash` is false, because the earlier generic `wash` branch
intercepts every name containing `cup wash`. -/
theorem C10_cup_wash_branch_unreachable (s : List Nat) :
    (normalize_product s == strCodes (r"Cup Wash")) = false :=
  beq_eq_false_iff_ne.mpr (normalize_product_never_cup_wash s)
